import Mathlib

/- Verification development for the receipt-renaming scripts
   renomear_comprovantes_v16_bradesco_pix.py and
   renomear_comprovantes_sanitized.py.  The Python code is shallowly
   embedded: strings are lists of characters, regular expressions are
   transcribed into an explicit backtracking matcher with Python's
   leftmost / lazy / greedy preference order, Python floats are modelled
   as exact decimals num / 10 ^ exp (the extractor only ever parses
   short decimal strings). -/

namespace Renomear

/-- Characters treated as whitespace; this follows Python str methods and
regex shorthand for the ASCII range plus the no-break space. -/
def pyIsSpace (c : Char) : Bool :=
  c = ' ' || c = '\t' || c = '\n' || c = '\r' || c = '\u000b' || c = '\u000c' || c = '\u00a0'

/-- ASCII decimal digit. -/
def isDigitC (c : Char) : Bool :=
  48 ≤ c.toNat && c.toNat ≤ 57

/-- ASCII letter, the set matched by the pattern fragment a-zA-Z. -/
def isAsciiAlpha (c : Char) : Bool :=
  (97 ≤ c.toNat && c.toNat ≤ 122) || (65 ≤ c.toNat && c.toNat ≤ 90)

/-- Letter in the Latin-1 supplement block. -/
def isLatin1Letter (c : Char) : Bool :=
  (192 ≤ c.toNat && c.toNat ≤ 255) && c.toNat ≠ 215 && c.toNat ≠ 247

/-- Character-wise model of Python str.upper covering ASCII and Latin-1,
which is the material the scripts manipulate; other characters are kept. -/
def pyUpper (c : Char) : Char :=
  let n := c.toNat
  if 97 ≤ n && n ≤ 122 then Char.ofNat (n - 32)
  else if (224 ≤ n && n ≤ 254) && n ≠ 247 then Char.ofNat (n - 32)
  else if n = 255 then Char.ofNat 376
  else c

/-- Character-wise model of Python str.lower covering ASCII and Latin-1. -/
def pyLower (c : Char) : Char :=
  let n := c.toNat
  if 65 ≤ n && n ≤ 90 then Char.ofNat (n + 32)
  else if (192 ≤ n && n ≤ 222) && n ≠ 215 then Char.ofNat (n + 32)
  else if n = 376 then Char.ofNat 255
  else c

def upperL (l : List Char) : List Char := l.map pyUpper

def lowerL (l : List Char) : List Char := l.map pyLower

/-- Word character for the regex word-boundary assertion. -/
def isWordC (c : Char) : Bool :=
  isAsciiAlpha c || isDigitC c || c = '_' || isLatin1Letter c

/-- Boolean list-prefix test (Python str.startswith). -/
def isPrefixL : List Char → List Char → Bool
  | [], _ => true
  | _ :: _, [] => false
  | a :: as, b :: bs => a = b && isPrefixL as bs

/-- Substring containment, Python's `needle in hay`. -/
def containsSub (hay needle : List Char) : Bool :=
  match hay with
  | [] => isPrefixL needle []
  | c :: t => isPrefixL needle (c :: t) || containsSub t needle

/-- Position of the first occurrence of a substring, Python str.find. -/
def indexOfSub (hay needle : List Char) : Option Nat :=
  match hay with
  | [] => if isPrefixL needle [] then some 0 else none
  | c :: t =>
    if isPrefixL needle (c :: t) then some 0
    else (indexOfSub t needle).map (· + 1)

/-- Python str.strip with no argument: drop whitespace at both ends. -/
def stripL (l : List Char) : List Char :=
  ((l.dropWhile pyIsSpace).reverse.dropWhile pyIsSpace).reverse

/-- Python str.strip with an explicit character set. -/
def stripSet (s : List Char) (l : List Char) : List Char :=
  ((l.dropWhile s.contains).reverse.dropWhile s.contains).reverse

/-- Helper for `splitWs`; accumulates the current word reversed. -/
def splitWsGo (cur : List Char) : List Char → List (List Char)
  | [] => if cur = [] then [] else [cur.reverse]
  | c :: t =>
    if pyIsSpace c then
      if cur = [] then splitWsGo [] t else cur.reverse :: splitWsGo [] t
    else splitWsGo (c :: cur) t

/-- Python str.split with no argument: whitespace runs, no empty items. -/
def splitWs (l : List Char) : List (List Char) := splitWsGo [] l

/-- Helper for `collapseWs`; the flag records whether the previous kept
character came from a whitespace run. -/
def collapseWsGo (prevSpace : Bool) : List Char → List Char
  | [] => []
  | c :: t =>
    if pyIsSpace c then
      if prevSpace then collapseWsGo true t else ' ' :: collapseWsGo true t
    else c :: collapseWsGo false t

/-- The substitution re.sub of one or more whitespace by a single blank. -/
def collapseWs (l : List Char) : List Char := collapseWsGo false l

/-- Helper for `splitlines`. -/
def splitlinesGo (cur : List Char) : List Char → List (List Char)
  | [] => if cur = [] then [] else [cur.reverse]
  | '\r' :: '\n' :: t => cur.reverse :: splitlinesGo [] t
  | '\n' :: t => cur.reverse :: splitlinesGo [] t
  | '\r' :: t => cur.reverse :: splitlinesGo [] t
  | c :: t => splitlinesGo (c :: cur) t

/-- Python str.splitlines restricted to the usual line breaks. -/
def splitlines (l : List Char) : List (List Char) := splitlinesGo [] l

/- ### A small backtracking regular-expression matcher

The constructors mirror the constructs used by the two scripts:
character classes, concatenation, alternation, greedy and lazy
star / bounded repetition, one capturing group, the start anchor of
a pattern without MULTILINE, the dollar anchor, the word boundary and
a negative lookahead.  `mall` enumerates the ways a piece of input can
be consumed, in exactly the preference order of Python's backtracking
engine, so the head of the list is the match Python reports. -/

inductive RE where
  | eps
  | cls (p : Char → Bool)
  | sq (a b : RE)
  | alt (a b : RE)
  | star (lazy : Bool) (r : RE)
  | rep (lo ext : Nat) (lazy : Bool) (r : RE)
  | grp (r : RE)
  | bol
  | eos
  | wb
  | nla (r : RE)

/-- Matcher state: remaining input, absolute position, previous character
(for word boundaries), current value of the capturing group. -/
structure MSt where
  rest : List Char
  pos : Nat
  prev : Option Char
  cap : Option (List Char)

/-- All ways `r` can match a prefix of the state's input, in Python's
backtracking preference order.  The fuel only bounds recursion depth;
every use below supplies enough fuel for the given input. -/
def mall (fuel : Nat) (r : RE) (st : MSt) : List MSt :=
  match fuel with
  | 0 => []
  | fuel + 1 =>
    match r with
    | .eps => [st]
    | .cls p =>
      match st.rest with
      | [] => []
      | c :: t => if p c then [⟨t, st.pos + 1, some c, st.cap⟩] else []
    | .sq a b => (mall fuel a st).flatMap (fun st2 => mall fuel b st2)
    | .alt a b => mall fuel a st ++ mall fuel b st
    | .star lz r =>
      let iter := (mall fuel r st).flatMap (fun st2 =>
        if st.pos < st2.pos then mall fuel (.star lz r) st2 else [])
      if lz then st :: iter else iter ++ [st]
    | .rep lo ext lz r =>
      match lo with
      | l + 1 => (mall fuel r st).flatMap (fun st2 => mall fuel (.rep l ext lz r) st2)
      | 0 =>
        match ext with
        | 0 => [st]
        | e + 1 =>
          let step := (mall fuel r st).flatMap (fun st2 =>
            if st.pos < st2.pos then mall fuel (.rep 0 e lz r) st2 else [])
          if lz then st :: step else step ++ [st]
    | .grp r =>
      (mall fuel r st).map
        (fun st2 => ⟨st2.rest, st2.pos, st2.prev, some (st.rest.take (st2.pos - st.pos))⟩)
    | .bol => if st.pos = 0 then [st] else []
    | .eos =>
      match st.rest with
      | [] => [st]
      | ['\n'] => [st]
      | _ => []
    | .wb =>
      let a := match st.prev with | none => false | some c => isWordC c
      let b := match st.rest with | [] => false | c :: _ => isWordC c
      if a ≠ b then [st] else []
    | .nla r =>
      match mall fuel r st with
      | [] => [st]
      | _ :: _ => []

/-- Size bound used to pick a sufficient fuel. -/
def reSize : RE → Nat
  | .eps => 1
  | .bol => 1
  | .eos => 1
  | .wb => 1
  | .cls _ => 1
  | .sq a b => reSize a + reSize b + 1
  | .alt a b => reSize a + reSize b + 1
  | .star _ r => reSize r + 1
  | .rep lo ext _ r => (lo + ext + 1) * (reSize r + 1) + 1
  | .grp r => reSize r + 1
  | .nla r => reSize r + 1

/-- Fuel that is ample for matching `r` against an input of length `n`. -/
def fuelFor (r : RE) (n : Nat) : Nat := (reSize r + 2) * (n + 2) + 8

/-- re.search starting at the given suffix: the leftmost match wins, and at
the winning position the first alternative in preference order is taken.
Returns (start, end, group capture). -/
def searchGo (fuel : Nat) (r : RE) (s : List Char) (p : Nat) (prev : Option Char) :
    Option (Nat × Nat × Option (List Char)) :=
  match mall fuel r ⟨s, p, prev, none⟩ with
  | st :: _ => some (p, st.pos, st.cap)
  | [] =>
    match s with
    | [] => none
    | c :: t => searchGo fuel r t (p + 1) (some c)

/-- Python re.search on the whole input. -/
def reSearch (r : RE) (s : List Char) : Option (Nat × Nat × Option (List Char)) :=
  searchGo (fuelFor r s.length) r s 0 none

/-- Helper for `reFinditer`: scans at most `g` times. -/
def finditGo (fuel : Nat) (r : RE) (g : Nat) (s : List Char) (p : Nat) (prev : Option Char) :
    List (Option (List Char)) :=
  match g with
  | 0 => []
  | g + 1 =>
    match searchGo fuel r s p prev with
    | none => []
    | some (st, en, cap) =>
      if st < en then
        cap :: finditGo fuel r g (s.drop (en - p)) en (s.get? (en - p - 1))
      else
        match s.drop (st - p) with
        | [] => [cap]
        | c :: t => cap :: finditGo fuel r g t (st + 1) (some c)

/-- Python re.finditer: non-overlapping matches left to right, each giving
its group capture. -/
def reFinditer (r : RE) (s : List Char) : List (Option (List Char)) :=
  finditGo (fuelFor r s.length) r (s.length + 1) s 0 none

/-- Python re.findall for a pattern with one group. -/
def reFindall (r : RE) (s : List Char) : List (List Char) :=
  (reFinditer r s).map (fun c => c.getD [])

/-- Helper for `reSubDel`. -/
def subDelGo (fuel : Nat) (r : RE) (g : Nat) (s : List Char) (p : Nat) (prev : Option Char) :
    List Char :=
  match g with
  | 0 => s
  | g + 1 =>
    match searchGo fuel r s p prev with
    | none => s
    | some (st, en, _) =>
      let pre := s.take (st - p)
      if st < en then
        pre ++ subDelGo fuel r g (s.drop (en - p)) en (s.get? (en - p - 1))
      else
        match s.drop (st - p) with
        | [] => pre
        | c :: t => pre ++ [c] ++ subDelGo fuel r g t (st + 1) (some c)

/-- Python re.sub with the empty replacement: delete every match. -/
def reSubDel (r : RE) (s : List Char) : List Char :=
  subDelGo (fuelFor r s.length) r (s.length + 1) s 0 none

/- ### Pattern construction helpers -/

def cat (l : List RE) : RE := l.foldr RE.sq RE.eps

def alts : List RE → RE
  | [] => RE.cls (fun _ => false)
  | [r] => r
  | r :: t => RE.alt r (alts t)

/-- Case-insensitive literal, as all extractor patterns carry IGNORECASE. -/
def ciLit (s : String) : RE :=
  cat (s.data.map (fun ch => RE.cls (fun c => pyLower c = pyLower ch)))

/-- Case-sensitive literal. -/
def csLit (s : String) : RE :=
  cat (s.data.map (fun ch => RE.cls (fun c => c = ch)))

def wsStar : RE := RE.star false (RE.cls pyIsSpace)

def wsPlus : RE := RE.sq (RE.cls pyIsSpace) wsStar

/-- Greedy option, the question-mark quantifier. -/
def ropt (r : RE) : RE := RE.alt r RE.eps

/-- Greedy plus of a character class. -/
def plusG (p : Char → Bool) : RE := RE.sq (RE.cls p) (RE.star false (RE.cls p))

/-- Lazy plus of a character class. -/
def plusL (p : Char → Bool) : RE := RE.sq (RE.cls p) (RE.star true (RE.cls p))

/-- Exactly n digits. -/
def dN (n : Nat) : RE := RE.rep n 0 false (RE.cls isDigitC)

/- ### Text normalizer (limpar_texto, identical in both scripts) -/

/-- The three character replacements performed before normalization:
the fi and fl ligatures and the line-separator U+2028. -/
def ligChar (c : Char) : List Char :=
  if c = 'ﬁ' then ['f', 'i']
  else if c = 'ﬂ' then ['f', 'l']
  else if c = '\u2028' then [' ']
  else [c]

/-- Modelled from the library call unicodedata.normalize NFKC: the
character-wise fragment covering the compatibility characters this
program manipulates (latin ligatures and the no-break space); all other
characters are left unchanged, as NFKC does on the program's data. -/
def nfkcChar (c : Char) : List Char :=
  if c = 'ﬁ' then ['f', 'i']
  else if c = 'ﬂ' then ['f', 'l']
  else if c = 'ﬀ' then ['f', 'f']
  else if c = '\u00a0' then [' ']
  else [c]

/-- Core of limpar_texto on character lists. -/
def limparL (l : List Char) : List Char :=
  (l.flatMap ligChar).flatMap nfkcChar

/-- limpar_texto: replace the problematic characters, then apply the
canonical compatibility composition. -/
def limpar_texto (s : String) : String := ⟨limparL s.data⟩

/- ### Filename sanitizer (sanitize_filename, identical in both scripts) -/

/-- Modelled from the library call unicodedata.normalize NFKD: the
character-wise fragment decomposing the accented Latin-1 letters that
appear in Brazilian receipts into base letter plus combining mark. -/
def nfkdChar (c : Char) : List Char :=
  if c = 'á' then ['a', '́'] else if c = 'à' then ['a', '̀']
  else if c = 'â' then ['a', '̂'] else if c = 'ã' then ['a', '̃']
  else if c = 'ä' then ['a', '̈'] else if c = 'ç' then ['c', '̧']
  else if c = 'é' then ['e', '́'] else if c = 'è' then ['e', '̀']
  else if c = 'ê' then ['e', '̂'] else if c = 'ë' then ['e', '̈']
  else if c = 'í' then ['i', '́'] else if c = 'ì' then ['i', '̀']
  else if c = 'î' then ['i', '̂'] else if c = 'ï' then ['i', '̈']
  else if c = 'ñ' then ['n', '̃'] else if c = 'ó' then ['o', '́']
  else if c = 'ò' then ['o', '̀'] else if c = 'ô' then ['o', '̂']
  else if c = 'õ' then ['o', '̃'] else if c = 'ö' then ['o', '̈']
  else if c = 'ú' then ['u', '́'] else if c = 'ù' then ['u', '̀']
  else if c = 'û' then ['u', '̂'] else if c = 'ü' then ['u', '̈']
  else if c = 'Á' then ['A', '́'] else if c = 'À' then ['A', '̀']
  else if c = 'Â' then ['A', '̂'] else if c = 'Ã' then ['A', '̃']
  else if c = 'Ä' then ['A', '̈'] else if c = 'Ç' then ['C', '̧']
  else if c = 'É' then ['E', '́'] else if c = 'È' then ['E', '̀']
  else if c = 'Ê' then ['E', '̂'] else if c = 'Ë' then ['E', '̈']
  else if c = 'Í' then ['I', '́'] else if c = 'Ì' then ['I', '̀']
  else if c = 'Î' then ['I', '̂'] else if c = 'Ï' then ['I', '̈']
  else if c = 'Ñ' then ['N', '̃'] else if c = 'Ó' then ['O', '́']
  else if c = 'Ò' then ['O', '̀'] else if c = 'Ô' then ['O', '̂']
  else if c = 'Õ' then ['O', '̃'] else if c = 'Ö' then ['O', '̈']
  else if c = 'Ú' then ['U', '́'] else if c = 'Ù' then ['U', '̀']
  else if c = 'Û' then ['U', '̂'] else if c = 'Ü' then ['U', '̈']
  else [c]

/-- Combining diacritical mark, the test unicodedata.combining(c) != 0
restricted to the block the decomposition above produces. -/
def isCombining (c : Char) : Bool :=
  768 ≤ c.toNat && c.toNat ≤ 879

/-- The configured maximum length of the sanitized beneficiary. -/
def MAX_NAME_LEN : Nat := 60

/-- Characters removed by the first substitution in sanitize_filename. -/
def isIllegalFn (c : Char) : Bool :=
  c = '\\' || c = '/' || c = ':' || c = '*' || c = '?' || c = '"' ||
  c = '<' || c = '>' || c = '|'

/-- Characters kept by the allow-list substitution in sanitize_filename. -/
def isAllowedFn (c : Char) : Bool :=
  isDigitC c || isAsciiAlpha c || c = '_' || c = '-' || pyIsSpace c ||
  c = '(' || c = ')' || c = '[' || c = ']'

/-- Python "_".join applied to a list of words. -/
def joinUnderscore : List (List Char) → List Char
  | [] => []
  | [w] => w
  | w :: ws => w ++ '_' :: joinUnderscore ws

/-- sanitize_filename: strip, decompose, drop combining marks, drop
illegal and non-allow-listed characters, join the words by underscores,
truncate to MAX_NAME_LEN, and fall back to the sentinel when empty. -/
def sanitize_filename (name : List Char) : List Char :=
  let n1 := stripL name
  let n2 := (n1.flatMap nfkdChar).filter (fun c => ! isCombining c)
  let n3 := n2.filter (fun c => ! isIllegalFn c)
  let n4 := n3.filter isAllowedFn
  let n5 := joinUnderscore (splitWs n4)
  let n6 := if MAX_NAME_LEN < n5.length then n5.take MAX_NAME_LEN else n5
  if n6 = [] then "FORNECEDOR_DESCONHECIDO".data else n6

/- ### Name validator -/

/-- One alphabetic run of length at least five exists, the test
len(re.findall(r'[a-zA-Z]\x7b5,\x7d', nome)) > 0. -/
def run5Go (k : Nat) : List Char → Bool
  | [] => 5 ≤ k
  | c :: t => if isAsciiAlpha c then run5Go (k + 1) t else (5 ≤ k) || run5Go 0 t

def hasRun5 (l : List Char) : Bool := run5Go 0 l

/-- The character class of the all-digits-and-punctuation rejection test. -/
def isDigitPunct (c : Char) : Bool :=
  isDigitC c || c = '.' || c = '-' || c = '*' || pyIsSpace c

namespace V16

/-- In-house entities rejected by the v16 validator. -/
def empresas_sistema : List (List Char) :=
  ["FARMAUSA".data, "URBANBOX".data, "PHARMACEUTICAL".data,
   "LIFE SCIENCE".data, "SICOOB".data]

/-- Banking jargon tokens rejected by the v16 validator. -/
def rejeitar : List (List Char) :=
  ["agencia".data, "conta".data, "cpf".data, "cnpj".data, "chave".data,
   "instituicao".data, "banco".data, "dados".data, "transferencia".data,
   "pagamento".data, "valor".data, "documento".data, "autenticacao".data,
   "controle".data, "debito".data, "origem".data, "destino".data,
   "corrente".data, "codigo".data, "barras".data, "linha".data,
   "digitavel".data]

/-- The in-house loop of the v16 validator: reject on any configured
substring, except a long SICOOB cooperative name that is not the full
bank name. -/
def loopEmpresas (l : List (List Char)) (nomeUpper : List Char) : Bool :=
  match l with
  | [] => false
  | e :: rest =>
    if containsSub nomeUpper e then
      if e = "SICOOB".data && 25 < nomeUpper.length &&
         ! containsSub nomeUpper ("SISTEMA DE COOPERATIVAS".data) then
        loopEmpresas rest nomeUpper
      else true
    else loopEmpresas rest nomeUpper

/-- validar_nome of the v16 script. -/
def validar_nome (nome : List Char) (min_len : Nat := 5) : Bool :=
  if nome = [] || nome.length < min_len then false
  else if ! nome.any isAsciiAlpha then false
  else if nome ≠ [] && nome.all isDigitPunct then false
  else if loopEmpresas empresas_sistema (upperL nome) then false
  else if rejeitar.any (fun r =>
      lowerL nome = r || isPrefixL (r ++ [' ']) (lowerL nome)) then false
  else if ! nome.any isAsciiAlpha then false
  else decide (2 ≤ (splitWs nome).length) || hasRun5 nome

end V16

namespace San

/-- In-house entities of the sanitized public script. -/
def empresas_sistema : List (List Char) :=
  ["SYSTEM_BANK".data, "YOUR_COMPANY".data]

/-- Banking jargon tokens of the sanitized public script. -/
def rejeitar : List (List Char) :=
  ["agencia".data, "conta".data, "cpf".data, "cnpj".data, "chave".data,
   "instituicao".data, "banco".data, "dados".data, "transferencia".data,
   "pagamento".data, "valor".data, "documento".data, "autenticacao".data,
   "controle".data, "debito".data, "origem".data]

/-- validar_nome of the sanitized script: same shape as v16 but with an
unconditional in-house rejection. -/
def validar_nome (nome : List Char) (min_len : Nat := 5) : Bool :=
  if nome = [] || nome.length < min_len then false
  else if ! nome.any isAsciiAlpha then false
  else if nome ≠ [] && nome.all isDigitPunct then false
  else if empresas_sistema.any (fun e => containsSub (upperL nome) e) then false
  else if rejeitar.any (fun r =>
      lowerL nome = r || isPrefixL (r ++ [' ']) (lowerL nome)) then false
  else decide (2 ≤ (splitWs nome).length) || hasRun5 nome

end San

/- ### Amount extractor (extrair_valor of the v16 script) -/

/-- A nonnegative decimal number num / 10 ^ exp, the exact value of a
parsed amount string.  Two parsed floats are equal exactly when the
decimal values agree, which `dvEq` decides by cross multiplication. -/
structure DecVal where
  num : Nat
  exp : Nat
deriving DecidableEq

/-- Equality of the represented numbers. -/
def dvEq (a b : DecVal) : Bool := a.num * 10 ^ b.exp = b.num * 10 ^ a.exp

/-- The represented rational number. -/
def DecVal.toRat (a : DecVal) : ℚ := (a.num : ℚ) / (10 : ℚ) ^ a.exp

/-- A scored amount candidate: the display string appended to
valores_encontrados, the pattern label, its priority and the parsed
numeric value. -/
structure VCand where
  valor : List Char
  tipo : String
  prioridade : Nat
  flt : DecVal
deriving DecidableEq

def digitsToNat (l : List Char) : Nat :=
  l.foldl (fun a c => a * 10 + (c.toNat - 48)) 0

/-- Modelled from the builtin float(): parsing of the digit-and-period
strings produced by the extractor; any other character, more than one
period or a digitless string raises, which is modelled as none. -/
def pyFloat (l : List Char) : Option DecVal :=
  if l.any (fun c => ! (isDigitC c || c = '.')) then none
  else if 1 < l.count '.' then none
  else if ! l.any isDigitC then none
  else
    let ip := l.takeWhile (· ≠ '.')
    let fp := (l.dropWhile (· ≠ '.')).drop 1
    some ⟨digitsToNat ip * 10 ^ fp.length + digitsToNat fp, fp.length⟩

namespace V16

/-- Candidate construction of the two priority-0 Bradesco patterns: the
comparison value strips periods and turns the comma into a period, but
the display string is the raw capture. -/
def mkBradCand (prio : Nat) (tipo : String) (raw : List Char) : Option VCand :=
  let val := stripL raw
  let val_conv := (val.filter (fun c => c ≠ '.')).map (fun c => if c = ',' then '.' else c)
  match pyFloat val_conv with
  | some q => if 0 < q.num then some ⟨val, tipo, prio, q⟩ else none
  | none => none

/-- Candidate construction of the generic pattern loop: when both comma
and period occur the periods are stripped, the remainder is parsed with
the comma read as decimal point, and the stored display string replaces
periods by commas. -/
def mkLoopCand (prio : Nat) (tipo : String) (raw : List Char) : Option VCand :=
  let val0 := stripL raw
  let val := if val0.contains ',' && val0.contains '.'
    then val0.filter (fun c => c ≠ '.') else val0
  let val_conv := val.map (fun c => if c = ',' then '.' else c)
  match pyFloat val_conv with
  | some q =>
    if 0 < q.num then some ⟨val.map (fun c => if c = '.' then ',' else c), tipo, prio, q⟩
    else none
  | none => none

/-- CNPJ shape dd.ddd.ddd/dddd-dd. -/
def cnpjRe : RE :=
  cat [dN 2, csLit ".", dN 3, csLit ".", dN 3, csLit "/", dN 4, csLit "-", dN 2]

/-- CPF shape ddd.ddd.ddd-dd. -/
def cpfRe : RE :=
  cat [dN 3, csLit ".", dN 3, csLit ".", dN 3, csLit "-", dN 2]

/-- Brazilian-formatted value d+(.ddd)*,dd with one to three leading digits. -/
def valorBr : RE :=
  cat [RE.rep 1 2 false (RE.cls isDigitC),
       RE.star false (cat [csLit ".", dN 3]),
       csLit ",", dN 2]

/-- Priority-0 pattern: value between a tax identifier and the zero fee. -/
def patBrad0 : RE :=
  cat [RE.alt cnpjRe cpfRe, wsPlus, RE.grp valorBr, wsPlus, ciLit "R$0,00"]

/-- Priority-0 alternative: value directly before the zero fee. -/
def patBrad0Alt : RE :=
  cat [RE.grp valorBr, wsPlus, ciLit "R$0,00"]

/-- The class of a captured amount. -/
def isValChar (c : Char) : Bool := isDigitC c || c = '.' || c = ','

/-- The common tail of the labelled amount patterns. -/
def valTail : RE :=
  cat [RE.star false (RE.cls (fun c => c = ':' || pyIsSpace c)),
       ropt (ciLit "R"), ropt (csLit "$"), wsStar, RE.grp (plusG isValChar)]

def patPrincipal : RE := cat [ciLit "Valor", wsPlus, ciLit "principal", valTail]

def patTotalPago : RE :=
  cat [ciLit "Valor", wsPlus, ciLit "total", wsPlus, ciLit "pago", valTail]

def patPagamento : RE :=
  cat [ciLit "Valor", wsPlus, ciLit "do", wsPlus, ciLit "pagamento", valTail]

def patTotal : RE := cat [ciLit "Valor", wsPlus, ciLit "total", valTail]

def patFavorecidoValor : RE :=
  cat [ciLit "Favorecido:", RE.star true (RE.cls (fun c => c ≠ '\n')),
       ciLit "Valor", valTail]

def patValorLinha : RE :=
  cat [RE.alt RE.bol (RE.cls (fun c => c = '\n')), ciLit "Valor", valTail]

def patBradPixValor : RE := cat [ciLit "Valor:R$", wsStar, RE.grp (plusG isValChar)]

def patRsIsolado : RE :=
  cat [ciLit "R$", wsStar, RE.grp (plusG isValChar),
       RE.nla (cat [wsStar,
         alts [ciLit "Juros", ciLit "Multa", ciLit "Desconto", ciLit "Bonif"]])]

/-- The ordered (pattern, priority, label) table of extrair_valor. -/
def patternsValor : List (RE × Nat × String) :=
  [(patPrincipal, 1, "principal"),
   (patTotalPago, 1, "total_pago"),
   (patPagamento, 2, "pagamento"),
   (patTotal, 3, "total"),
   (patFavorecidoValor, 2, "favorecido_valor"),
   (patValorLinha, 4, "valor_linha"),
   (patBradPixValor, 1, "bradesco_pix_valor"),
   (patRsIsolado, 5, "rs_isolado")]

/-- All amount candidates gathered for a text, in discovery order: the
two priority-0 Bradesco searches first, then every match of every
pattern of the table. -/
def valoresEncontrados (texto : List Char) : List VCand :=
  let b1 := match reSearch patBrad0 texto with
    | some (_, _, some g) => (mkBradCand 0 "bradesco_pix_apos_cnpj" g).toList
    | _ => []
  let b2 := if b1.isEmpty then
      match reSearch patBrad0Alt texto with
      | some (_, _, some g) => (mkBradCand 0 "bradesco_pix_antes_tarifa" g).toList
      | _ => []
    else []
  (b1 ++ b2) ++
    patternsValor.flatMap
      (fun pt => (reFindall pt.1 texto).filterMap (mkLoopCand pt.2.1 pt.2.2))

/-- The deduplication dictionary update: a value keyed by its parsed
number is replaced only by a strictly lower priority, and the key keeps
its first-insertion position. -/
def updValor (m : List (DecVal × VCand)) (v : VCand) : List (DecVal × VCand) :=
  match m with
  | [] => [(v.flt, v)]
  | (k, g) :: rest =>
    if dvEq k v.flt then
      (if v.prioridade < g.prioridade then (k, v) else (k, g)) :: rest
    else (k, g) :: updValor rest v

def unicosValor (l : List VCand) : List (DecVal × VCand) := l.foldl updValor []

/-- Python min with the priority key: the first element of minimal
priority in iteration order. -/
def melhorValorCand : List VCand → Option VCand
  | [] => none
  | c :: t => some (t.foldl (fun b x => if x.prioridade < b.prioridade then x else b) c)

/-- extrair_valor of the v16 script. -/
def extrair_valor (texto : List Char) : List Char :=
  if texto = [] then "VALOR_NAO_ENCONTRADO".data
  else if (valoresEncontrados texto).isEmpty then "VALOR_NAO_ENCONTRADO".data
  else
    match melhorValorCand ((unicosValor (valoresEncontrados texto)).map Prod.snd) with
    | some m => m.valor
    | none => "VALOR_NAO_ENCONTRADO".data

end V16

/- ### Beneficiary extractor (extrair_beneficiario of the v16 script) -/

/-- A scored beneficiary candidate, one dictionary of the candidatos
list: extracted name, detector score, detector tag. -/
structure BCand where
  nome : List Char
  score : Nat
  metodo : String
deriving DecidableEq

/-- Class aá, case-insensitively. -/
def clAa : RE := RE.cls (fun c => pyLower c = 'a' || pyLower c = 'á')

/-- Class aã, case-insensitively. -/
def clAt : RE := RE.cls (fun c => pyLower c = 'a' || pyLower c = 'ã')

/-- Class ée, case-insensitively. -/
def clEa : RE := RE.cls (fun c => pyLower c = 'e' || pyLower c = 'é')

/-- Class êe, case-insensitively. -/
def clEc : RE := RE.cls (fun c => pyLower c = 'e' || pyLower c = 'ê')

/-- Class çc, case-insensitively. -/
def clCc : RE := RE.cls (fun c => pyLower c = 'c' || pyLower c = 'ç')

/-- Class OÓ, case-insensitively. -/
def clOo : RE := RE.cls (fun c => pyLower c = 'o' || pyLower c = 'ó')

/-- The class A-ZÀ-ÚÇ under IGNORECASE. -/
def clsUpPT (c : Char) : Bool :=
  let u := (pyUpper c).toNat
  (65 ≤ u && u ≤ 90) || (192 ≤ u && u ≤ 218)

/-- The class A-ZÀ-ÚÇ with whitespace, period, hyphen, parentheses and
digits, used by the Controle de Pagamento capture. -/
def clsCorpo22 (c : Char) : Bool :=
  clsUpPT c || pyIsSpace c || c = '.' || c = '-' || c = '(' || c = ')' || isDigitC c

/-- As `clsCorpo22` but without digits. -/
def clsCorpo21 (c : Char) : Bool :=
  clsUpPT c || pyIsSpace c || c = '.' || c = '-' || c = '(' || c = ')'

/-- The class A-Z with whitespace, period and hyphen under IGNORECASE. -/
def clsNmDot (c : Char) : Bool :=
  isAsciiAlpha c || pyIsSpace c || c = '.' || c = '-'

/-- The class A-Z with whitespace, hyphen, parentheses and period. -/
def clsNmPar (c : Char) : Bool :=
  isAsciiAlpha c || pyIsSpace c || c = '-' || c = '(' || c = ')' || c = '.'

/-- The class A-Z with whitespace. -/
def clsAZsp (c : Char) : Bool := isAsciiAlpha c || pyIsSpace c

/-- The class A-Z0-9 with whitespace, period and hyphen. -/
def clsSic (c : Char) : Bool :=
  isAsciiAlpha c || isDigitC c || pyIsSpace c || c = '.' || c = '-'

/-- The class A-Z0-9 with hyphen and whitespace of the tax pattern. -/
def clsImposto (c : Char) : Bool :=
  isAsciiAlpha c || isDigitC c || c = '-' || pyIsSpace c

/-- Colon-or-whitespace class. -/
def clsColWs (c : Char) : Bool := c = ':' || pyIsSpace c

namespace V16

/-- Score 22: Controle de Pagamento Beneficiário with lazy name capture
ended by CPF/CNPJ, Controle or the end of the text. -/
def pat22 : RE :=
  cat [ciLit "Controle", wsPlus, ciLit "de", wsPlus, ciLit "Pagamento", wsPlus,
       ciLit "Benefici", clAa, ciLit "rio:", wsStar,
       RE.grp (RE.sq (RE.cls clsUpPT) (plusL clsCorpo22)),
       alts [cat [wsStar, ciLit "CPF/CNPJ:"],
             cat [wsStar, ciLit "Controle:"],
             cat [wsStar, RE.eos]]]

/-- Score 21: name between the paying company's fixed CNPJ and the
receiver's tax identifier. -/
def pat21 : RE :=
  cat [ciLit "37.124.240/0001-08", wsPlus,
       RE.grp (RE.sq (RE.cls clsUpPT) (plusL clsCorpo21)),
       alts [cat [wsPlus, cnpjRe],
             cat [wsPlus, cpfRe],
             cat [wsStar, RE.eos]]]

/-- Score 20: Dados de quem recebeu followed by Nome, DOTALL. -/
def pat20 : RE :=
  cat [ciLit "Dados", wsPlus, ciLit "de", wsPlus, ciLit "quem", wsPlus,
       ciLit "recebeu", RE.star true (RE.cls (fun _ => true)),
       ciLit "Nome:", wsStar,
       RE.grp (RE.sq (RE.cls clsUpPT) (plusL clsCorpo21)),
       alts [cat [wsStar, ciLit "CPF/CNPJ:"],
             cat [wsStar, ciLit "Institui", clCc, clAt, ciLit "o"],
             cat [wsStar, RE.eos]]]

/-- The terminator set shared by the TED, PIX and Sicoob boleto captures. -/
def termTed : RE :=
  alts [cat [wsStar, ciLit "CPF/CNPJ"],
        cat [wsStar, ciLit "Instituição"],
        cat [wsStar, ciLit "Chave"],
        cat [wsStar, ciLit "Agência"],
        cat [wsStar, ciLit "Conta"],
        RE.eos]

/-- Score 19: Sicoob TED, Crédito then Nome. -/
def patTed : RE :=
  cat [ciLit "Cr", clEa, ciLit "dito:", wsStar, ciLit "Nome:", wsStar,
       RE.grp (RE.sq (RE.cls isAsciiAlpha) (RE.rep 5 95 true (RE.cls clsNmDot))),
       termTed]

/-- PIX pattern, receiver block then Nome, applied to the raw text. -/
def patPix1 : RE :=
  cat [alts [ciLit "Dados de quem recebeu",
             cat [ciLit "Destina", wsStar, ciLit "t", clAa, ciLit "rio", wsStar, csLit ":"]],
       RE.star true (RE.cls (fun _ => true)),
       ciLit "Nome", wsStar, csLit ":", wsStar,
       RE.grp (RE.sq (RE.cls isAsciiAlpha) (RE.rep 5 95 true (RE.cls clsNmDot))),
       termTed]

/-- PIX fallback pattern, name placed before the Nome label. -/
def patPix2 : RE :=
  cat [ropt (alts [ciLit "CPF/CNPJ", ciLit "CNPJ"]), ropt (csLit ":"), wsStar,
       RE.grp (RE.sq (RE.cls isAsciiAlpha) (RE.rep 5 95 true (RE.cls clsNmDot))),
       wsStar, ciLit "Nome:"]

/-- Score 13: Santander PIX, Dados do recebedor Para. -/
def patSant : RE :=
  cat [ciLit "Dados do recebedor Para", wsStar,
       ropt (plusG (fun c => isDigitC c || pyIsSpace c)), wsStar,
       RE.grp (RE.sq (RE.cls isAsciiAlpha) (RE.rep 5 95 true (RE.cls clsNmPar))),
       alts [cat [wsStar, ciLit "Chave"],
             cat [wsStar, ciLit "CPF/CNPJ"],
             cat [wsStar, ciLit "Agência"],
             cat [wsStar, ciLit "Conta"],
             RE.eos]]

/-- Score 12: name placed before its Razão Social Beneficiário tag. -/
def patBoletoRev : RE :=
  cat [RE.grp (RE.sq (RE.cls isAsciiAlpha) (RE.rep 5 95 true (RE.cls clsNmPar))),
       wsPlus, ciLit "Raz", clAt, ciLit "o", wsPlus, ciLit "Social", wsPlus,
       ciLit "Benefici", clAa, ciLit "rio",
       ropt (cat [wsPlus, ciLit "Final"]), wsStar, csLit ":"]

/-- Score 10: the Sicoob label block, DOTALL, applied to the raw text. -/
def patSicoob : RE :=
  cat [alts [cat [ciLit "Nome/Raz", clAt, ciLit "o Social:"],
             cat [ciLit "Conv", clEc, ciLit "nio:"],
             cat [ciLit "Benefici", clAa, ciLit "rio:"],
             ciLit "Nome:"],
       wsStar, RE.grp (plusL clsSic),
       alts [cat [wsStar, ciLit "Nome Fantasia"],
             cat [wsStar, ciLit "CPF/CNPJ"],
             cat [wsStar, ciLit "Pagador"],
             cat [wsStar, ciLit "Cr", clEa, ciLit "dito:"],
             cat [wsStar, ciLit "Autentica", clCc, clAt, ciLit "o"],
             RE.eos]]

/-- Score 10: Santander boleto, Beneficiário Original then Razão Social. -/
def patSantOrig : RE :=
  cat [ciLit "Benefici", clAa, ciLit "rio Original",
       RE.star true (RE.cls (fun _ => true)),
       ciLit "Raz", clAt, ciLit "o Social:", wsStar,
       RE.grp (RE.sq (RE.cls isAsciiAlpha)
         (plusL (fun c => isAsciiAlpha c || pyIsSpace c || c = '-' || c = '(' || c = ')'))),
       alts [cat [wsStar, ciLit "Nome Fantasia"],
             cat [wsStar, ciLit "Dados do Pagador"]]]

/-- Guard of the tax branch. -/
def patImpostoGuard : RE := alts [ciLit "IMPOSTO", ciLit "TAXA"]

/-- Score 10: Empresa or Órgão label of a tax payment. -/
def patImposto : RE :=
  cat [ciLit "Empresa", plusG (fun c => c = '\\' || c = '/' || pyIsSpace c),
       clOo, ciLit "rg", clAt, ciLit "o", plusG clsColWs,
       RE.grp (RE.sq (RE.cls isAsciiAlpha) (RE.rep 5 45 true (RE.cls clsImposto))),
       alts [cat [wsStar, dN 2, csLit ".", dN 3],
             cat [wsStar, ciLit "Codigo"],
             cat [wsStar, ciLit "CNPJ"]]]

/-- Score 9: state-of-Rio tax names, found with findall. -/
def patGrerj : RE :=
  cat [RE.wb,
       RE.grp (cat [ciLit "RJ-", plusG clsAZsp,
                    ropt (alts [ciLit "ELETRONICA", ciLit "DIGITAL"])]),
       RE.wb]

/-- Score 10: Sicoob boleto, Beneficiário then Nome/Razão Social. -/
def patSicoobBoleto : RE :=
  cat [ciLit "Benefici", clAa, ciLit "rio:", wsStar,
       ciLit "Nome/Raz", clAt, ciLit "o", wsStar, ciLit "Social:", wsStar,
       RE.grp (RE.sq (RE.cls isAsciiAlpha) (RE.rep 5 95 true (RE.cls clsNmDot))),
       termTed]

/-- Score 10: Razão Social Beneficiário, forward variant. -/
def patRazaoFwd : RE :=
  cat [ciLit "Raz", clAt, ciLit "o", wsPlus, ciLit "Social", wsPlus,
       ciLit "Benefici", clAa, ciLit "rio", plusG clsColWs,
       RE.grp (alts
         [cat [RE.cls isAsciiAlpha, plusG clsAZsp, ciLit "LTDA"],
          cat [RE.cls isAsciiAlpha, plusG clsAZsp, ciLit "S", ropt (csLit "."),
               ciLit "A", ropt (csLit ".")],
          cat [RE.cls isAsciiAlpha, RE.rep 10 50 true (RE.cls clsAZsp)]]),
       cat [wsStar, alts [csLit "013", csLit "037", ciLit "CPF", ciLit "CNPJ",
                          ciLit "Nome", ciLit "Banco",
                          cat [dN 3, csLit ".", dN 3]]]]

/-- Score 9: Beneficiário Final, forward variant. -/
def patBenefFinal : RE :=
  cat [ciLit "Benefici", clAa, ciLit "rio", wsPlus, ciLit "Final", plusG clsColWs,
       RE.grp (RE.sq (RE.cls isAsciiAlpha) (plusL clsAZsp)),
       cat [wsStar, alts [ciLit "CPF", ciLit "CNPJ", ciLit "Razao",
                          cat [dN 3, csLit ".", dN 3]]]]

/-- Score 10: Favorecido label of a simple transfer. -/
def patFavorecido : RE :=
  cat [ciLit "Favorecido", plusG clsColWs,
       RE.grp (RE.sq (RE.cls isAsciiAlpha) (plusL clsAZsp)),
       alts [cat [wsPlus, ciLit "Valor"],
             cat [wsPlus, ciLit "CNPJ"],
             cat [wsPlus, ciLit "CPF"]]]

/-- Deleting captured tax identifiers from a name, with a strip after
each substitution. -/
def rmDocs (l : List Char) : List Char :=
  stripL (reSubDel cpfRe (stripL (reSubDel cnpjRe l)))

/-- The group of the first match of a pattern, if any. -/
def searchG (r : RE) (s : List Char) : Option (List Char) :=
  match reSearch r s with
  | some (_, _, some g) => some g
  | _ => none

/-- The sequential Sicoob name-mapping table; each line compares the
upper-cased stripped current name. -/
def sicoobFix (b : List Char) : List Char :=
  let b := if stripL (upperL b) = "DALL PHYT OLAB S A".data
    then "DALL PHYTO LAB S.A.".data else b
  let b := if stripL (upperL b) = "PREF SP DAMSP".data
    then "PREFEITURA MUNICIPAL DE SAO PAULO".data else b
  let b := if stripL (upperL b) = "PRO AN QUIM E DIAGNOSTICA LTDA".data
    then "PRO AN QUIMICA E DIAGNOSTICA LTDA".data else b
  let b := if stripL (upperL b) = "SUPRICORP SUPRIMENTOS LTDA".data
    then "SUPRICORP SUPRIMENTOS LTDA".data else b
  let b := if stripL (upperL b) = "SUPER EPI EQUIPAM E PROTECAO INDIVIDUAL".data
    then "SUPER EPI EQUIPAMENTOS E PROTECAO INDIVIDUAL".data else b
  let b := if stripL (upperL b) = "ANHANGUERA COM DE FERR LTDA".data
    then "ANHANGUERA COM DE FERRO LTDA".data else b
  let b := if stripL (upperL b) = "KALUNGA SA".data then "KALUNGA S.A.".data else b
  let b := if stripL (upperL b) = "XP INVESTIMENTOS".data
    then "XP INVESTIMENTOS".data else b
  let b := if stripL (upperL b) = "FARMAUSA LIFE SCIENCE".data
    then "FARMAUSA LIFE SCIENCE".data else b
  b

set_option maxHeartbeats 2000000 in
/-- All beneficiary candidates of a text, in the order the v16 detectors
append them. -/
def candidatosBenef (texto : List Char) : List BCand :=
  let texto_clean := collapseWs texto
  let c22 := match searchG pat22 texto_clean with
    | some g =>
      let nome := rmDocs (upperL (collapseWs (stripL g)))
      if validar_nome nome 5 then
        [⟨nome, 22, "BRADESCO-PIX-ControlePagamento-V16"⟩] else []
    | none => []
  let c21 := match searchG pat21 texto_clean with
    | some g =>
      let nome := upperL (collapseWs (stripL g))
      if validar_nome nome 5 then [⟨nome, 21, "BRADESCO-PIX-AposCNPJ-V16"⟩] else []
    | none => []
  let c20 :=
    if containsSub texto "Bradesco".data || containsSub (lowerL texto) "bradesco".data then
      match searchG pat20 texto_clean with
      | some g =>
        let nome := upperL (collapseWs (stripL g))
        if validar_nome nome 5 then [⟨nome, 20, "BRADESCO-PIX-DadosRecebeu-V16"⟩] else []
      | none => []
    else []
  let cTed := match searchG patTed texto_clean with
    | some g =>
      let nome := upperL (collapseWs (stripL g))
      if validar_nome nome 5 then [⟨nome, 19, "SICOOB-TED-V19"⟩] else []
    | none => []
  let cPix :=
    if containsSub (upperL texto) "PIX".data then
      let m := match searchG patPix1 texto with
        | some g => some g
        | none => searchG patPix2 texto_clean
      match m with
      | some g =>
        let raw_nome := stripL g
        let nome := stripL (raw_nome.map (fun c =>
          if isAsciiAlpha c || pyIsSpace c || c = '.' then c else ' '))
        let nome := upperL (collapseWs nome)
        if containsSub nome "FARMAUSA".data || containsSub nome "URBANBOX".data then []
        else if validar_nome nome 8 then
          let score := if containsSub texto "Dados de quem recebeu".data then 15 else 14
          [⟨nome, score, "PIX-recebedor-V15"⟩]
        else []
      | none => []
    else []
  let cSant := match searchG patSant texto_clean with
    | some g =>
      let nome := upperL (collapseWs (stripL g))
      if validar_nome nome 8 then [⟨nome, 13, "SANTANDER-PIX-recebedor-V15"⟩] else []
    | none => []
  let cBoletoRev := match searchG patBoletoRev texto_clean with
    | some g =>
      let nome := upperL (collapseWs (stripL g))
      if validar_nome nome 8 then [⟨nome, 12, "BOLETO-razao-social-reversa-V15"⟩] else []
    | none => []
  let cSicoob :=
    if containsSub (upperL texto) "SICOOB".data then
      match searchG patSicoob texto with
      | some g =>
        let benef := stripL g
        if containsSub (upperL benef) "SICOOB".data &&
           containsSub (upperL benef) "SISTEMA DE COOPERATIVAS".data then []
        else
          let benef := sicoobFix benef
          if validar_nome benef 5 then [⟨benef, 10, "SICOOB-beneficiario"⟩] else []
      | none => []
    else []
  let cSantOrig :=
    if containsSub texto "Santander".data &&
       containsSub texto "Dados do Beneficiário Original".data then
      match searchG patSantOrig texto_clean with
      | some g =>
        let benef := stripL g
        if validar_nome benef 5 then [⟨benef, 10, "SANTANDER-beneficiario-original"⟩] else []
      | none => []
    else []
  let cImposto :=
    if (reSearch patImpostoGuard texto).isSome then
      let ca := match searchG patImposto texto_clean with
        | some g =>
          let orgao := stripL g
          if validar_nome orgao 5 then [⟨orgao, 10, "IMPOSTO-regex"⟩] else []
        | none => []
      let cb := (reFindall patGrerj texto_clean).filterMap (fun nome =>
        if validar_nome nome 5 then some ⟨stripL nome, 9, "IMPOSTO-padrao-RJ"⟩ else none)
      ca ++ cb
    else []
  let cBoleto :=
    if containsSub texto "Boleto".data || containsSub texto "Beneficiário".data ||
       containsSub texto "Razão Social".data then
      let ca := match searchG patSicoobBoleto texto_clean with
        | some g =>
          let nome := upperL (collapseWs (stripL g))
          if validar_nome nome 5 then [⟨nome, 10, "SICOOB-BOLETO-V19"⟩] else []
        | none => []
      let cb := match searchG patRazaoFwd texto_clean with
        | some g =>
          let benef := stripL g
          if validar_nome benef 8 then [⟨benef, 10, "BOLETO-razao-social-forward"⟩] else []
        | none => []
      let cc := match searchG patBenefFinal texto_clean with
        | some g =>
          let benef := stripL g
          if validar_nome benef 8 then [⟨benef, 9, "BOLETO-final-forward"⟩] else []
        | none => []
      ca ++ cb ++ cc
    else []
  let cFav := match searchG patFavorecido texto_clean with
    | some g =>
      let fav := stripL g
      if validar_nome fav 5 then [⟨fav, 10, "Santander-favorecido"⟩] else []
    | none => []
  c22 ++ c21 ++ c20 ++ cTed ++ cPix ++ cSant ++ cBoletoRev ++ cSicoob ++
    cSantOrig ++ cImposto ++ cBoleto ++ cFav

/-- The dictionary key of the final decision: upper-cased stripped name. -/
def nomeNorm (c : BCand) : List Char := stripL (upperL c.nome)

/-- The decision dictionary update: a name keyed by its normalization is
replaced only by a strictly greater score, keeping first-insertion order. -/
def updBenef (m : List (List Char × BCand)) (c : BCand) : List (List Char × BCand) :=
  match m with
  | [] => [(nomeNorm c, c)]
  | (k, g) :: rest =>
    if k = nomeNorm c then
      (if g.score < c.score then (k, c) else (k, g)) :: rest
    else (k, g) :: updBenef rest c

def unicosBenef (l : List BCand) : List (List Char × BCand) := l.foldl updBenef []

/-- Python max with the score key: the first element of maximal score in
iteration order. -/
def melhorBenefCand : List BCand → Option BCand
  | [] => none
  | c :: t => some (t.foldl (fun b x => if b.score < x.score then x else b) c)

/-- extrair_beneficiario of the v16 script. -/
def extrair_beneficiario (texto : List Char) : List Char :=
  if texto = [] then "FORNECEDOR_DESCONHECIDO".data
  else if (candidatosBenef texto).isEmpty then "FORNECEDOR_DESCONHECIDO".data
  else
    match melhorBenefCand ((unicosBenef (candidatosBenef texto)).map Prod.snd) with
    | some c => c.nome
    | none => "FORNECEDOR_DESCONHECIDO".data

/- ### Fallback beneficiary pass (tratar_fornecedor_desconhecido) -/

/-- Capture class with the accented uppercase letters listed explicitly. -/
def clsTrat1 (c : Char) : Bool :=
  let u := pyUpper c
  isAsciiAlpha c || isDigitC c || c = '.' || c = '-' || c = '&' || pyIsSpace c ||
  c = '(' || c = ')' || c = '/' || u = 'Ç' || u = 'Ã' || u = 'Õ' || u = 'É' ||
  u = 'Ê' || u = 'Í' || u = 'Ó' || u = 'Ú' || u = 'À' || u = 'Â'

/-- Capture class of the remaining fallback patterns. -/
def clsTrat2 (c : Char) : Bool :=
  isAsciiAlpha c || isDigitC c || c = '.' || c = '-' || c = '&' || pyIsSpace c ||
  c = '(' || c = ')' || c = '/'

/-- The ordered (pattern, score) table of the fallback pass, searched on
the whitespace-collapsed upper-cased text. -/
def tratPatterns : List (RE × Nat) :=
  [(cat [ciLit "CONTROLE DE PAGAMENTO", wsPlus, ciLit "BENEFICI", clAa,
         ciLit "RIO:", wsStar, RE.grp (RE.rep 5 115 false (RE.cls clsTrat1))], 105),
   (cat [ciLit "Conta", RE.star false (RE.cls clsColWs),
         plusG (fun c => c ≠ '\n' && c ≠ '/'), csLit "/", wsStar,
         RE.grp (RE.rep 5 115 false (RE.cls clsTrat2))], 100),
   (cat [ciLit "Cr", clEa, ciLit "dito", RE.rep 0 300 true (RE.cls (fun _ => true)),
         ciLit "Nome", RE.star false (RE.cls clsColWs),
         RE.grp (RE.rep 5 115 false (RE.cls clsTrat2))], 95),
   (cat [ciLit "D", clEa, ciLit "bito", RE.rep 0 300 true (RE.cls (fun _ => true)),
         ciLit "Nome", RE.star false (RE.cls clsColWs),
         RE.grp (RE.rep 5 115 false (RE.cls clsTrat2))], 94),
   (cat [ciLit "DADOS DE QUEM RECEBEU", RE.rep 0 200 true (RE.cls (fun _ => true)),
         ciLit "NOME", RE.star false (RE.cls clsColWs),
         RE.grp (RE.rep 5 115 false (RE.cls clsTrat2))], 92),
   (cat [ciLit "FAVORECIDO", RE.star false (RE.cls clsColWs),
         RE.grp (RE.rep 5 115 false (RE.cls clsTrat2))], 90),
   (cat [ciLit "RAZ", clAt, ciLit "O", wsPlus, ciLit "SOCIAL", wsPlus,
         ciLit "BENEFICIA", ropt (ciLit "R"), ciLit "IO",
         ropt (cat [wsPlus, ciLit "FINAL"]), RE.star false (RE.cls clsColWs),
         RE.grp (RE.rep 5 115 false (RE.cls clsTrat2))], 88),
   (cat [ciLit "EMPRESA", wsStar,
         ropt (alts [csLit "/", cat [csLit "\\", ciLit "s"]]), wsStar,
         clOo, ciLit "RG", clAt, ciLit "O", RE.star false (RE.cls clsColWs),
         RE.grp (RE.rep 5 115 false (RE.cls clsTrat2))], 85),
   (cat [RE.wb, ciLit "PARA", RE.star false (RE.cls clsColWs),
         RE.grp (RE.rep 5 115 false (RE.cls clsTrat2))], 80)]

/-- The technical-word filter of the line-scanning fallback, applied to
an upper-cased line without IGNORECASE. -/
def patTechWords : RE :=
  cat [RE.wb,
       alts [csLit "AGENCIA", csLit "CONTA", csLit "CPF", csLit "CNPJ",
             csLit "CHAVE", csLit "BANC", csLit "VALOR", csLit "LOTE",
             csLit "NSU", csLit "LINHA", csLit "BARRAS", csLit "AUTENTICA"],
       RE.wb]

/-- Latin capital letter through U-acute, the class of the line filter
applied to the upper-cased line without IGNORECASE. -/
def clsLineLetter (c : Char) : Bool :=
  (65 ≤ c.toNat && c.toNat ≤ 90) || (192 ≤ c.toNat && c.toNat ≤ 218)

/-- One candidate of the fallback pattern pass. -/
def tratStep (textoOrig textoUpper : List Char) (p : RE × Nat) :
    List (List Char × Nat) :=
  match searchG p.1 textoUpper with
  | some g =>
    let nome := stripL g
    let nome := stripSet [' ', '/', '-'] (collapseWs nome)
    let nome := rmDocs nome
    let snippetRaw := match indexOfSub (upperL textoOrig) (upperL nome) with
      | some idx => some ((textoOrig.drop idx).take nome.length)
      | none => none
    let candidato := match snippetRaw with
      | some s => if s = [] then nome else s
      | none => nome
    if validar_nome candidato 5 then [(stripL candidato, p.2)] else []
  | none => []

/-- tratar_fornecedor_desconhecido of the v16 script: anchored fallback
patterns, then the longest jargon-free line, then the best score wins
with the earliest candidate kept on ties. -/
def tratar_fornecedor_desconhecido (texto : List Char) : List Char :=
  if texto = [] then "FORNECEDOR_DESCONHECIDO".data
  else
    let texto_upper := upperL (collapseWs texto)
    let candidatos := tratPatterns.flatMap (tratStep texto texto_upper)
    let candidatos :=
      if candidatos = [] then
        let lines := (splitlines texto).map stripL |>.filter (fun l => l ≠ [])
        let ok := fun (ln : List Char) =>
          6 ≤ ln.length && (upperL ln).any clsLineLetter &&
          ! (reSearch patTechWords (upperL ln)).isSome &&
          validar_nome ln 5
        let best := lines.foldl (fun b ln =>
          if ok ln then
            match b with
            | none => some ln
            | some bb => if bb.length < ln.length then some ln else some bb
          else b) none
        match best with
        | some b => [(stripL b, 50)]
        | none => []
      else candidatos
    match candidatos with
    | [] => "FORNECEDOR_DESCONHECIDO".data
    | c :: t => stripL (t.foldl (fun b x => if b.2 < x.2 then x else b) c).1

end V16

/- ### Payer classifier, filename builder and occurrence counter -/

namespace V16

/-- The configured alias table, in its source order. -/
def EMPRESAS : List (List Char × List (List Char)) :=
  [("LIFE_SCIENCE".data, ["FARMAUSA LIFE SCIENCE".data, "LIFE SCIENCE".data]),
   ("URBANBOX".data, ["URBANBOX".data]),
   ("PHARMACEUTICAL".data,
    ["FARMAUSA PHARMACEUTICAL".data, "FARMAUSA PHARMACEUTICAL LTDA".data])]

/-- identificar_empresa: the first configured code one of whose aliases
occurs in the upper-cased text, with the OUTROS fallback. -/
def identificar_empresa (texto : List Char) : List Char :=
  let t := upperL texto
  match EMPRESAS.find? (fun ke => ke.2.any (fun a => containsSub t (upperL a))) with
  | some ke => ke.1
  | none => "OUTROS".data

/-- The duplicate-disambiguation marker letter. -/
def pixMarcador : List Char := "N".data

/-- The number of tail characters of a barcode used as snippet. -/
def BARCODE_TAIL_LEN : Nat := 6

/-- montar_nome: sanitized beneficiary, optional snippet, amount (or its
sentinel when empty), the N-numbered duplicate marker when the counter
exceeds one, and the fixed extension. -/
def montar_nome (benef valor : List Char) (contador : Nat) (snippet : List Char) :
    List Char :=
  let benef_safe := sanitize_filename benef
  let valor_safe := if valor = [] then "VALOR_NAO_ENCONTRADO".data else valor
  let base :=
    if snippet = [] then benef_safe ++ " - ".data ++ valor_safe
    else benef_safe ++ " - ".data ++ snippet ++ " - ".data ++ valor_safe
  if 1 < contador then
    pixMarcador ++ (Nat.repr contador).data ++ " - ".data ++ base ++ ".pdf".data
  else base ++ ".pdf".data

/-- The occurrence key (payer code, beneficiary, amount). -/
abbrev OccKey := List Char × List Char × List Char

/-- One step of the defaultdict counter: bump the count of a key and
report its new value. -/
def bump (m : List (OccKey × Nat)) (k : OccKey) : List (OccKey × Nat) × Nat :=
  match m with
  | [] => ([(k, 1)], 1)
  | (k2, n) :: rest =>
    if k2 = k then ((k2, n + 1) :: rest, n + 1)
    else
      let r := bump rest k
      ((k2, n) :: r.1, r.2)

/-- Helper of `contadorRun`. -/
def contadorGo (m : List (OccKey × Nat)) : List OccKey → List Nat
  | [] => []
  | k :: rest =>
    let r := bump m k
    r.2 :: contadorGo r.1 rest

/-- The occurrence numbers assigned to a run of keys in processing
order, as by contador of main: first occurrence one, then increments. -/
def contadorRun (ks : List OccKey) : List Nat := contadorGo [] ks

/-- The guard of the barcode-snippet branch in main. -/
def patSnippetGuard : RE :=
  alts [cat [ciLit "LINHA", wsPlus, ciLit "DIGIT"],
        cat [ciLit "CODIGO", wsPlus, ciLit "DE", wsPlus, ciLit "BARRAS"],
        cat [ciLit "NOSSO", wsPlus, ciLit "N"]]

/-- extrair_linha_digitavel_ou_codbarra: remove the whitespace and take
the first run of twenty to sixty digits. -/
def extrair_linha_digitavel_ou_codbarra (texto : List Char) : List Char :=
  if texto = [] then []
  else
    let tl := texto.filter (fun c => ! pyIsSpace c)
    match searchG (RE.grp (RE.rep 20 40 false (RE.cls isDigitC))) tl with
    | some g => g
    | none => []

/-- The per-page result assembled by main. -/
structure ResultadoPagina where
  beneficiario : List Char
  valor : List Char
  empresa : List Char
  nomeArquivo : List Char
deriving DecidableEq

/-- The per-page core of main: normalize the extracted text, run the
three extractors (with the fallback beneficiary pass on the sentinel),
compute the snippet, and build the filename at the given occurrence. -/
def processar_pagina (raw : List Char) (cnt : Nat) : ResultadoPagina :=
  let texto := limparL raw
  let b0 := extrair_beneficiario texto
  let beneficiario :=
    if b0 = "FORNECEDOR_DESCONHECIDO".data then tratar_fornecedor_desconhecido texto
    else b0
  let valor := extrair_valor texto
  let empresa := identificar_empresa texto
  let snippet :=
    if (reSearch patSnippetGuard texto).isSome then
      let seq := extrair_linha_digitavel_ou_codbarra texto
      if seq = [] then []
      else if BARCODE_TAIL_LEN ≤ seq.length then seq.drop (seq.length - BARCODE_TAIL_LEN)
      else seq
    else []
  ⟨beneficiario, valor, empresa, montar_nome beneficiario valor cnt snippet⟩

end V16

/- ### Derived specification vocabulary -/

/-- The number of occurrences of a key in a list of keys. -/
def countOcc (ks : List V16.OccKey) (k : V16.OccKey) : Nat :=
  (ks.filter (fun x => x = k)).length

/-- First value associated to a key in the counter state, zero if absent,
as a defaultdict of integers reads. -/
def lookupC : List (V16.OccKey × Nat) → V16.OccKey → Nat
  | [], _ => 0
  | (k2, n) :: rest, k => if k2 = k then n else lookupC rest k

/- ### Lemmas about the occurrence counter -/

theorem bump_snd (m : List (V16.OccKey × Nat)) (k : V16.OccKey) : (V16.bump m k).2 = lookupC m k + 1 := by
  induction m with
  | nil => rfl
  | cons p rest ih =>
    obtain ⟨k2, n⟩ := p
    by_cases h : k2 = k
    · simp [V16.bump, lookupC, h]
    · simp [V16.bump, lookupC, h, ih]

theorem bump_lookup (m : List (V16.OccKey × Nat)) (k k2 : V16.OccKey) :
    lookupC (V16.bump m k).1 k2 = if k2 = k then lookupC m k + 1 else lookupC m k2 := by
  induction m with
  | nil =>
    simp only [V16.bump, lookupC]
    split_ifs with h1 h2 h2 <;> first | rfl | (exact absurd h1.symm h2) | (exact absurd h2.symm h1)
  | cons p rest ih =>
    obtain ⟨k3, n⟩ := p
    simp only [V16.bump]
    by_cases h3 : k3 = k
    · rw [if_pos h3]
      simp only [lookupC]
      split_ifs with h1 h2 h2 <;> first | rfl | omega | (exact absurd (h3.trans h2.symm) h1) | (exact absurd (h1.trans h2) h3) | skip
      all_goals simp_all
    · rw [if_neg h3]
      simp only [lookupC, ih]
      split_ifs with h1 h2 h2 <;> first | rfl | (exact absurd (h1.trans h2.symm) h3) | skip
      all_goals simp_all

theorem contadorGo_get (ks : List V16.OccKey) :
    ∀ (m : List (V16.OccKey × Nat)) (i : Nat) (h : i < ks.length),
      (V16.contadorGo m ks)[i]? =
        some (lookupC m ks[i] + countOcc (ks.take (i + 1)) ks[i]) := by
  induction ks with
  | nil => intro m i h; exact absurd h (by simp)
  | cons k rest ih =>
    intro m i h
    match i with
    | 0 =>
      simp [V16.contadorGo, bump_snd, countOcc]
    | j + 1 =>
      have hj : j < rest.length := by simpa using h
      have hrec := ih (V16.bump m k).1 j hj
      simp only [V16.contadorGo, List.getElem?_cons_succ, hrec, bump_lookup,
        List.getElem_cons_succ]
      have hco : countOcc ((k :: rest).take (j + 1 + 1)) rest[j] =
          (if k = rest[j] then 1 else 0) + countOcc (rest.take (j + 1)) rest[j] := by
        simp only [List.take_succ_cons, countOcc, List.filter]
        by_cases hk : k = rest[j] <;> (simp [hk]; try omega)
      rw [hco]
      by_cases hk : rest[j] = k
      · rw [if_pos hk, if_pos hk.symm]
        simp only [Option.some.injEq, hk]
        omega
      · have hk2 : ¬ k = rest[j] := fun h2 => hk h2.symm
        rw [if_neg hk, if_neg hk2]
        simp only [Option.some.injEq]
        omega

/- ### Lemmas about the amount dictionary and selection -/

theorem dvEq_refl (a : DecVal) : dvEq a a = true := by simp [dvEq]

theorem dvEq_symm (a b : DecVal) : dvEq a b = dvEq b a := by
  unfold dvEq
  exact decide_eq_decide.mpr eq_comm

theorem dvEq_trans {a b c : DecVal} (h1 : dvEq a b = true) (h2 : dvEq b c = true) :
    dvEq a c = true := by
  simp only [dvEq, decide_eq_true_eq] at h1 h2 ⊢
  have h10 : 0 < 10 ^ b.exp := Nat.pos_pow_of_pos _ (by norm_num)
  apply Nat.eq_of_mul_eq_mul_right h10
  calc a.num * 10 ^ c.exp * 10 ^ b.exp
      = (a.num * 10 ^ b.exp) * 10 ^ c.exp := by ring
    _ = (b.num * 10 ^ a.exp) * 10 ^ c.exp := by rw [h1]
    _ = (b.num * 10 ^ c.exp) * 10 ^ a.exp := by ring
    _ = (c.num * 10 ^ b.exp) * 10 ^ a.exp := by rw [h2]
    _ = c.num * 10 ^ a.exp * 10 ^ b.exp := by ring

theorem updV_keys (v : VCand) : ∀ (m : List (DecVal × VCand)),
    ∀ q ∈ V16.updValor m v, (∃ p ∈ m, q.1 = p.1) ∨ q.1 = v.flt := by
  intro m
  induction m with
  | nil =>
    intro q hq
    simp only [V16.updValor, List.mem_singleton] at hq
    right; rw [hq]
  | cons p rest ih =>
    obtain ⟨k, g⟩ := p
    intro q hq
    unfold V16.updValor at hq
    split at hq
    · rcases List.mem_cons.mp hq with hq | hq
      · subst hq
        left
        split <;> exact ⟨(k, g), List.mem_cons_self _ _, rfl⟩
      · left; exact ⟨q, List.mem_cons_of_mem _ hq, rfl⟩
    · rcases List.mem_cons.mp hq with hq | hq
      · subst hq; left; exact ⟨(k, g), List.mem_cons_self _ _, rfl⟩
      · rcases ih q hq with ⟨p2, hp2, he⟩ | he
        · left; exact ⟨p2, List.mem_cons_of_mem _ hp2, he⟩
        · right; exact he

theorem updV_pairwise (v : VCand) : ∀ (m : List (DecVal × VCand)),
    m.Pairwise (fun p q => dvEq p.1 q.1 = false) →
    (V16.updValor m v).Pairwise (fun p q => dvEq p.1 q.1 = false) := by
  intro m
  induction m with
  | nil =>
    intro _
    simp [V16.updValor]
  | cons p rest ih =>
    obtain ⟨k, g⟩ := p
    intro hP
    rcases List.pairwise_cons.mp hP with ⟨hhead, hrest⟩
    unfold V16.updValor
    split
    · refine List.pairwise_cons.mpr ⟨?_, hrest⟩
      intro q hq
      split <;> exact hhead q hq
    · rename_i hc
      refine List.pairwise_cons.mpr ⟨?_, ih hrest⟩
      intro q hq
      rcases updV_keys v rest q hq with ⟨p2, hp2, he⟩ | he
      · rw [he]; exact hhead p2 hp2
      · rw [he]; simpa using hc

theorem updV_covers_new (v : VCand) : ∀ (m : List (DecVal × VCand)),
    ∃ p ∈ V16.updValor m v, dvEq v.flt p.1 = true := by
  intro m
  induction m with
  | nil => exact ⟨(v.flt, v), by simp [V16.updValor], dvEq_refl _⟩
  | cons p rest ih =>
    obtain ⟨k, g⟩ := p
    unfold V16.updValor
    split
    · rename_i hc
      refine ⟨_, List.mem_cons_self _ _, ?_⟩
      split <;> (rw [← dvEq_symm]; exact hc)
    · rcases ih with ⟨p2, hp2, he⟩
      exact ⟨p2, List.mem_cons_of_mem _ hp2, he⟩

theorem updV_keys_sub (v : VCand) : ∀ (m : List (DecVal × VCand)),
    ∀ p ∈ m, ∃ q ∈ V16.updValor m v, q.1 = p.1 := by
  intro m
  induction m with
  | nil => intro p hp; cases hp
  | cons hd rest ih =>
    obtain ⟨k, g⟩ := hd
    intro p hp
    unfold V16.updValor
    rcases List.mem_cons.mp hp with hp | hp
    · subst hp
      split
      · split <;> exact ⟨_, List.mem_cons_self _ _, rfl⟩
      · exact ⟨(k, g), List.mem_cons_self _ _, rfl⟩
    · split
      · exact ⟨p, List.mem_cons_of_mem _ hp, rfl⟩
      · rcases ih p hp with ⟨q, hq, he⟩
        exact ⟨q, List.mem_cons_of_mem _ hq, he⟩

theorem updV_cases (v : VCand) : ∀ (m : List (DecVal × VCand)),
    m.Pairwise (fun p q => dvEq p.1 q.1 = false) →
    ∀ p ∈ V16.updValor m v,
      (p ∈ m ∧ dvEq p.1 v.flt = false) ∨
      (p ∈ m ∧ dvEq p.1 v.flt = true ∧ p.2.prioridade ≤ v.prioridade) ∨
      (p.2 = v ∧ dvEq p.1 v.flt = true ∧
        ∃ g0, (p.1, g0) ∈ m ∧ v.prioridade < g0.prioridade) ∨
      (p = (v.flt, v) ∧ ∀ q ∈ m, dvEq q.1 v.flt = false) := by
  intro m
  induction m with
  | nil =>
    intro _ p hp
    simp only [V16.updValor, List.mem_singleton] at hp
    subst hp
    right; right; right
    exact ⟨rfl, fun q hq => absurd hq (List.not_mem_nil _)⟩
  | cons hd rest ih =>
    obtain ⟨k, g⟩ := hd
    intro hP p hp
    rcases List.pairwise_cons.mp hP with ⟨hhead, hrest⟩
    unfold V16.updValor at hp
    split at hp
    · rename_i hc
      rcases List.mem_cons.mp hp with hp | hp
      · split at hp
        · rename_i hlt
          subst hp
          right; right; left
          exact ⟨rfl, hc, g, List.mem_cons_self _ _, hlt⟩
        · rename_i hnlt
          subst hp
          right; left
          exact ⟨List.mem_cons_self _ _, hc, Nat.le_of_not_lt hnlt⟩
      · left
        refine ⟨List.mem_cons_of_mem _ hp, ?_⟩
        by_contra hcon
        have hpt : dvEq p.1 v.flt = true := by
          cases hx : dvEq p.1 v.flt
          · exact absurd hx hcon
          · rfl
        have : dvEq k p.1 = true :=
          dvEq_trans hc (by rw [dvEq_symm]; exact hpt)
        rw [hhead p hp] at this
        cases this
    · rename_i hc
      rcases List.mem_cons.mp hp with hp | hp
      · subst hp
        left
        exact ⟨List.mem_cons_self _ _, by simpa using hc⟩
      · rcases ih hrest p hp with ⟨h1, h2⟩ | ⟨h1, h2, h3⟩ | ⟨h1, h2, g0, h3, h4⟩ | ⟨h1, h2⟩
        · exact Or.inl ⟨List.mem_cons_of_mem _ h1, h2⟩
        · exact Or.inr (Or.inl ⟨List.mem_cons_of_mem _ h1, h2, h3⟩)
        · exact Or.inr (Or.inr (Or.inl ⟨h1, h2, g0, List.mem_cons_of_mem _ h3, h4⟩))
        · refine Or.inr (Or.inr (Or.inr ⟨h1, ?_⟩))
          intro q hq
          rcases List.mem_cons.mp hq with hq | hq
          · rw [hq]; simpa using hc
          · exact h2 q hq

theorem unicosValor_concat (cs : List VCand) (v : VCand) :
    V16.unicosValor (cs ++ [v]) = V16.updValor (V16.unicosValor cs) v := by
  simp [V16.unicosValor, List.foldl_append]

theorem unicosValor_spec (cs : List VCand) :
    (∀ p ∈ V16.unicosValor cs, p.2 ∈ cs ∧ dvEq p.2.flt p.1 = true ∧
        ∀ d ∈ cs, dvEq d.flt p.1 = true → p.2.prioridade ≤ d.prioridade) ∧
    (∀ d ∈ cs, ∃ p ∈ V16.unicosValor cs, dvEq d.flt p.1 = true) ∧
    (V16.unicosValor cs).Pairwise (fun p q => dvEq p.1 q.1 = false) := by
  induction cs using List.reverseRecOn with
  | nil =>
    refine ⟨?_, ?_, ?_⟩ <;> simp [V16.unicosValor]
  | append_singleton cs v ih =>
    obtain ⟨S1, S2, S3⟩ := ih
    rw [unicosValor_concat]
    refine ⟨?_, ?_, updV_pairwise v _ S3⟩
    · intro p hp
      rcases updV_cases v _ S3 p hp with
        ⟨h1, h2⟩ | ⟨h1, h2, h3⟩ | ⟨h1, h2, g0, h3, h4⟩ | ⟨h1, h2⟩
      · rcases S1 p h1 with ⟨m1, m2, m3⟩
        refine ⟨List.mem_append_left _ m1, m2, ?_⟩
        intro d hd hde
        rcases List.mem_append.mp hd with hd | hd
        · exact m3 d hd hde
        · have hdv : d = v := List.mem_singleton.mp hd
          subst hdv
          exfalso
          have hx : dvEq p.1 d.flt = true := by rw [dvEq_symm]; exact hde
          rw [h2] at hx
          cases hx
      · rcases S1 p h1 with ⟨m1, m2, m3⟩
        refine ⟨List.mem_append_left _ m1, m2, ?_⟩
        intro d hd hde
        rcases List.mem_append.mp hd with hd | hd
        · exact m3 d hd hde
        · have hdv : d = v := List.mem_singleton.mp hd
          subst hdv
          exact h3
      · have hS := S1 (p.1, g0) h3
        have m1 : g0 ∈ cs := hS.1
        have m2 : dvEq g0.flt p.1 = true := hS.2.1
        have m3 : ∀ d ∈ cs, dvEq d.flt p.1 = true → g0.prioridade ≤ d.prioridade :=
          hS.2.2
        have hp2 : p.2.prioridade = v.prioridade := by rw [h1]
        refine ⟨?_, ?_, ?_⟩
        · rw [h1]; exact List.mem_append_right _ (List.mem_singleton.mpr rfl)
        · rw [h1, dvEq_symm]; exact h2
        · intro d hd hde
          rcases List.mem_append.mp hd with hd | hd
          · have := m3 d hd hde
            omega
          · have hdv : d = v := List.mem_singleton.mp hd
            subst hdv
            omega
      · have hp1 : p.1 = v.flt := by rw [h1]
        have hp2 : p.2 = v := by rw [h1]
        refine ⟨?_, ?_, ?_⟩
        · rw [hp2]; exact List.mem_append_right _ (List.mem_singleton.mpr rfl)
        · rw [hp2, hp1]; exact dvEq_refl _
        · intro d hd hde
          rcases List.mem_append.mp hd with hd | hd
          · exfalso
            rcases S2 d hd with ⟨q, hq, hqe⟩
            have hdp : dvEq d.flt v.flt = true := by rw [← hp1]; exact hde
            have hqv : dvEq q.1 v.flt = true :=
              dvEq_trans (by rw [dvEq_symm]; exact hqe) hdp
            rw [h2 q hq] at hqv
            cases hqv
          · have hdv : d = v := List.mem_singleton.mp hd
            subst hdv
            rw [hp2]
    · intro d hd
      rcases List.mem_append.mp hd with hd | hd
      · rcases S2 d hd with ⟨q, hq, hqe⟩
        rcases updV_keys_sub v _ q hq with ⟨q2, hq2, he⟩
        exact ⟨q2, hq2, by rw [he]; exact hqe⟩
      · have hdv : d = v := List.mem_singleton.mp hd
        rw [hdv]
        exact updV_covers_new v _

theorem foldlMin_mem (t : List VCand) : ∀ b : VCand,
    (t.foldl (fun b x => if x.prioridade < b.prioridade then x else b) b) = b ∨
    (t.foldl (fun b x => if x.prioridade < b.prioridade then x else b) b) ∈ t := by
  induction t with
  | nil => intro b; left; rfl
  | cons h t ih =>
    intro b
    simp only [List.foldl_cons]
    rcases ih (if h.prioridade < b.prioridade then h else b) with h1 | h1
    · rw [h1]
      split
      · right; exact List.mem_cons_self _ _
      · left; rfl
    · right; exact List.mem_cons_of_mem _ h1

theorem foldlMin_le (t : List VCand) : ∀ b : VCand,
    (t.foldl (fun b x => if x.prioridade < b.prioridade then x else b) b).prioridade ≤
      b.prioridade ∧
    ∀ x ∈ t,
      (t.foldl (fun b x => if x.prioridade < b.prioridade then x else b) b).prioridade ≤
        x.prioridade := by
  induction t with
  | nil => intro b; exact ⟨le_refl _, fun x hx => absurd hx (List.not_mem_nil _)⟩
  | cons h t ih =>
    intro b
    simp only [List.foldl_cons]
    rcases ih (if h.prioridade < b.prioridade then h else b) with ⟨ih1, ih2⟩
    constructor
    · refine le_trans ih1 ?_
      split <;> omega
    · intro x hx
      rcases List.mem_cons.mp hx with hx | hx
      · subst hx
        refine le_trans ih1 ?_
        split <;> omega
      · exact ih2 x hx

theorem melhorValor_spec (l : List VCand) (c : VCand)
    (h : V16.melhorValorCand l = some c) :
    c ∈ l ∧ ∀ x ∈ l, c.prioridade ≤ x.prioridade := by
  match l with
  | [] => cases h
  | b :: t =>
    simp only [V16.melhorValorCand, Option.some.injEq] at h
    subst h
    constructor
    · rcases foldlMin_mem t b with h1 | h1
      · rw [h1]; exact List.mem_cons_self _ _
      · exact List.mem_cons_of_mem _ h1
    · intro x hx
      rcases List.mem_cons.mp hx with hx | hx
      · subst hx; exact (foldlMin_le t x).1
      · exact (foldlMin_le t b).2 x hx

/- ### Lemmas about the beneficiary dictionary and selection -/

/-- The keys of a run, in order of first occurrence. -/
def firstOccKeys (ks : List (List Char)) : List (List Char) :=
  ks.foldl (fun acc k => if k ∈ acc then acc else acc ++ [k]) []

instance : Inhabited BCand := ⟨⟨[], 0, ""⟩⟩

theorem updB_keys (c : BCand) : ∀ (m : List (List Char × BCand)),
    (V16.updBenef m c).map Prod.fst =
      if V16.nomeNorm c ∈ m.map Prod.fst then m.map Prod.fst
      else m.map Prod.fst ++ [V16.nomeNorm c] := by
  intro m
  induction m with
  | nil => simp [V16.updBenef]
  | cons hd rest ih =>
    obtain ⟨k, g⟩ := hd
    unfold V16.updBenef
    by_cases hc : k = V16.nomeNorm c
    · rw [if_pos hc]
      have : V16.nomeNorm c ∈ ((k, g) :: rest).map Prod.fst := by
        simp [hc.symm]
      rw [if_pos this]
      split <;> simp [hc]
    · rw [if_neg hc]
      by_cases hmem : V16.nomeNorm c ∈ rest.map Prod.fst
      · have : V16.nomeNorm c ∈ ((k, g) :: rest).map Prod.fst := by simp [hmem]
        rw [if_pos this]
        simp only [List.map_cons, ih, if_pos hmem]
      · have hne : ¬ V16.nomeNorm c ∈ ((k, g) :: rest).map Prod.fst := by
          simp only [List.map_cons, List.mem_cons]
          rintro (h | h)
          · exact hc h.symm
          · exact hmem h
        rw [if_neg hne]
        simp only [List.map_cons, ih, if_neg hmem, List.cons_append]

theorem unicosBenef_concat (cs : List BCand) (v : BCand) :
    V16.unicosBenef (cs ++ [v]) = V16.updBenef (V16.unicosBenef cs) v := by
  simp [V16.unicosBenef, List.foldl_append]

theorem firstOccKeys_concat (ks : List (List Char)) (k : List Char) :
    firstOccKeys (ks ++ [k]) =
      if k ∈ firstOccKeys ks then firstOccKeys ks else firstOccKeys ks ++ [k] := by
  simp [firstOccKeys, List.foldl_append]

theorem unicosBenef_keys (cs : List BCand) :
    (V16.unicosBenef cs).map Prod.fst = firstOccKeys (cs.map V16.nomeNorm) := by
  induction cs using List.reverseRecOn with
  | nil => simp [V16.unicosBenef, firstOccKeys]
  | append_singleton cs v ih =>
    rw [unicosBenef_concat, updB_keys, ih]
    simp [firstOccKeys_concat]

theorem updB_keys_sub (c : BCand) : ∀ (m : List (List Char × BCand)),
    ∀ p ∈ m, ∃ q ∈ V16.updBenef m c, q.1 = p.1 := by
  intro m
  induction m with
  | nil => intro p hp; cases hp
  | cons hd rest ih =>
    obtain ⟨k, g⟩ := hd
    intro p hp
    unfold V16.updBenef
    rcases List.mem_cons.mp hp with hp | hp
    · subst hp
      split
      · split <;> exact ⟨_, List.mem_cons_self _ _, rfl⟩
      · exact ⟨(k, g), List.mem_cons_self _ _, rfl⟩
    · split
      · exact ⟨p, List.mem_cons_of_mem _ hp, rfl⟩
      · rcases ih p hp with ⟨q, hq, he⟩
        exact ⟨q, List.mem_cons_of_mem _ hq, he⟩

theorem updB_covers_new (c : BCand) : ∀ (m : List (List Char × BCand)),
    ∃ p ∈ V16.updBenef m c, p.1 = V16.nomeNorm c := by
  intro m
  induction m with
  | nil => exact ⟨(V16.nomeNorm c, c), by simp [V16.updBenef], rfl⟩
  | cons hd rest ih =>
    obtain ⟨k, g⟩ := hd
    unfold V16.updBenef
    split
    · rename_i hc
      refine ⟨_, List.mem_cons_self _ _, ?_⟩
      split <;> exact hc
    · rcases ih with ⟨p, hp, he⟩
      exact ⟨p, List.mem_cons_of_mem _ hp, he⟩

theorem updB_cases (v : BCand) : ∀ (m : List (List Char × BCand)),
    (m.map Prod.fst).Nodup →
    ∀ p ∈ V16.updBenef m v,
      (p ∈ m ∧ p.1 ≠ V16.nomeNorm v) ∨
      (p ∈ m ∧ p.1 = V16.nomeNorm v ∧ v.score ≤ p.2.score) ∨
      (p.2 = v ∧ p.1 = V16.nomeNorm v ∧
        ∃ g0, (p.1, g0) ∈ m ∧ g0.score < v.score) ∨
      (p = (V16.nomeNorm v, v) ∧ ∀ q ∈ m, q.1 ≠ V16.nomeNorm v) := by
  intro m
  induction m with
  | nil =>
    intro _ p hp
    simp only [V16.updBenef, List.mem_singleton] at hp
    subst hp
    right; right; right
    exact ⟨rfl, fun q hq => absurd hq (List.not_mem_nil _)⟩
  | cons hd rest ih =>
    obtain ⟨k, g⟩ := hd
    intro hN p hp
    rw [List.map_cons] at hN
    rcases List.nodup_cons.mp hN with ⟨hhead, hrest⟩
    unfold V16.updBenef at hp
    split at hp
    · rename_i hc
      rcases List.mem_cons.mp hp with hp | hp
      · split at hp
        · rename_i hlt
          subst hp
          right; right; left
          exact ⟨rfl, hc, g, List.mem_cons_self _ _, hlt⟩
        · rename_i hnlt
          subst hp
          right; left
          exact ⟨List.mem_cons_self _ _, hc, Nat.le_of_not_lt hnlt⟩
      · left
        refine ⟨List.mem_cons_of_mem _ hp, ?_⟩
        intro he
        apply hhead
        show k ∈ List.map Prod.fst rest
        have hpk : p.1 = k := by rw [he, ← hc]
        rw [← hpk]
        exact List.mem_map_of_mem Prod.fst hp
    · rename_i hc
      rcases List.mem_cons.mp hp with hp | hp
      · subst hp
        left
        exact ⟨List.mem_cons_self _ _, hc⟩
      · rcases ih hrest p hp with ⟨h1, h2⟩ | ⟨h1, h2, h3⟩ | ⟨h1, h2, g0, h3, h4⟩ | ⟨h1, h2⟩
        · exact Or.inl ⟨List.mem_cons_of_mem _ h1, h2⟩
        · exact Or.inr (Or.inl ⟨List.mem_cons_of_mem _ h1, h2, h3⟩)
        · exact Or.inr (Or.inr (Or.inl ⟨h1, h2, g0, List.mem_cons_of_mem _ h3, h4⟩))
        · refine Or.inr (Or.inr (Or.inr ⟨h1, ?_⟩))
          intro q hq
          rcases List.mem_cons.mp hq with hq | hq
          · rw [hq]; exact hc
          · exact h2 q hq

theorem unicosBenef_spec (cs : List BCand) :
    (∀ p ∈ V16.unicosBenef cs, p.2 ∈ cs ∧ V16.nomeNorm p.2 = p.1 ∧
        ∀ d ∈ cs, V16.nomeNorm d = p.1 → d.score ≤ p.2.score) ∧
    (∀ d ∈ cs, ∃ p ∈ V16.unicosBenef cs, V16.nomeNorm d = p.1) ∧
    ((V16.unicosBenef cs).map Prod.fst).Nodup := by
  induction cs using List.reverseRecOn with
  | nil =>
    refine ⟨?_, ?_, ?_⟩ <;> simp [V16.unicosBenef]
  | append_singleton cs v ih =>
    obtain ⟨S1, S2, S3⟩ := ih
    rw [unicosBenef_concat]
    have hNodup : ((V16.updBenef (V16.unicosBenef cs) v).map Prod.fst).Nodup := by
      rw [updB_keys]
      split
      · exact S3
      · rename_i hmem
        simp only [List.nodup_append, List.nodup_singleton]
        refine ⟨S3, by simp, fun a ha hav => ?_⟩
        have hae : a = V16.nomeNorm v := by simpa using hav
        exact hmem (hae ▸ ha)
    refine ⟨?_, ?_, hNodup⟩
    · intro p hp
      rcases updB_cases v _ S3 p hp with
        ⟨h1, h2⟩ | ⟨h1, h2, h3⟩ | ⟨h1, h2, g0, h3, h4⟩ | ⟨h1, h2⟩
      · rcases S1 p h1 with ⟨m1, m2, m3⟩
        refine ⟨List.mem_append_left _ m1, m2, ?_⟩
        intro d hd hde
        rcases List.mem_append.mp hd with hd | hd
        · exact m3 d hd hde
        · have hdv : d = v := List.mem_singleton.mp hd
          subst hdv
          exact absurd hde.symm h2
      · rcases S1 p h1 with ⟨m1, m2, m3⟩
        refine ⟨List.mem_append_left _ m1, m2, ?_⟩
        intro d hd hde
        rcases List.mem_append.mp hd with hd | hd
        · exact m3 d hd hde
        · have hdv : d = v := List.mem_singleton.mp hd
          subst hdv
          exact h3
      · have hS := S1 (p.1, g0) h3
        have m1 : g0 ∈ cs := hS.1
        have m2 : V16.nomeNorm g0 = p.1 := hS.2.1
        have m3 : ∀ d ∈ cs, V16.nomeNorm d = p.1 → d.score ≤ g0.score := hS.2.2
        have hp2 : p.2.score = v.score := by rw [h1]
        refine ⟨?_, ?_, ?_⟩
        · rw [h1]; exact List.mem_append_right _ (List.mem_singleton.mpr rfl)
        · rw [h1, ← h2]
        · intro d hd hde
          rcases List.mem_append.mp hd with hd | hd
          · have := m3 d hd hde
            omega
          · have hdv : d = v := List.mem_singleton.mp hd
            subst hdv
            omega
      · have hp1 : p.1 = V16.nomeNorm v := by rw [h1]
        have hp2 : p.2 = v := by rw [h1]
        refine ⟨?_, ?_, ?_⟩
        · rw [hp2]; exact List.mem_append_right _ (List.mem_singleton.mpr rfl)
        · rw [hp2, hp1]
        · intro d hd hde
          rcases List.mem_append.mp hd with hd | hd
          · exfalso
            rcases S2 d hd with ⟨q, hq, hqe⟩
            apply h2 q hq
            rw [← hqe, hde, hp1]
          · have hdv : d = v := List.mem_singleton.mp hd
            subst hdv
            rw [hp2]
    · intro d hd
      rcases List.mem_append.mp hd with hd | hd
      · rcases S2 d hd with ⟨q, hq, hqe⟩
        rcases updB_keys_sub v _ q hq with ⟨q2, hq2, he⟩
        exact ⟨q2, hq2, by rw [he]; exact hqe⟩
      · have hdv : d = v := List.mem_singleton.mp hd
        rw [hdv]
        rcases updB_covers_new v (V16.unicosBenef cs) with ⟨p, hp, he⟩
        exact ⟨p, hp, he.symm⟩

theorem foldlMax_first (t : List BCand) : ∀ b : BCand,
    (t.foldl (fun b x => if b.score < x.score then x else b) b = b ∧
      ∀ x ∈ t, x.score ≤ b.score) ∨
    (∃ l1 l2, t = l1 ++ (t.foldl (fun b x => if b.score < x.score then x else b) b) :: l2 ∧
      b.score < (t.foldl (fun b x => if b.score < x.score then x else b) b).score ∧
      (∀ x ∈ l1, x.score < (t.foldl (fun b x => if b.score < x.score then x else b) b).score) ∧
      (∀ x ∈ l2, x.score ≤ (t.foldl (fun b x => if b.score < x.score then x else b) b).score)) := by
  induction t with
  | nil =>
    intro b
    left
    exact ⟨rfl, fun x hx => absurd hx (List.not_mem_nil _)⟩
  | cons h t ih =>
    intro b
    simp only [List.foldl_cons]
    by_cases hb : b.score < h.score
    · rw [if_pos hb]
      have H := ih h
      generalize hr : List.foldl (fun b x => if b.score < x.score then x else b) h t = r at H ⊢
      rcases H with ⟨he, hall⟩ | ⟨l1, l2, heq, hb2, h1, h2⟩
      · right
        refine ⟨[], t, ?_, ?_, ?_, ?_⟩
        · rw [he]; exact (List.nil_append _).symm
        · rw [he]; exact hb
        · intro x hx; cases hx
        · rw [he]; exact hall
      · right
        refine ⟨h :: l1, l2, ?_, ?_, ?_, h2⟩
        · rw [heq]; rfl
        · omega
        · intro x hx
          rcases List.mem_cons.mp hx with hx | hx
          · subst hx; omega
          · exact h1 x hx
    · rw [if_neg hb]
      have H := ih b
      generalize hr : List.foldl (fun b x => if b.score < x.score then x else b) b t = r at H ⊢
      rcases H with ⟨he, hall⟩ | ⟨l1, l2, heq, hb2, h1, h2⟩
      · left
        refine ⟨he, ?_⟩
        intro x hx
        rcases List.mem_cons.mp hx with hx | hx
        · subst hx; omega
        · exact hall x hx
      · right
        refine ⟨h :: l1, l2, ?_, hb2, ?_, h2⟩
        · rw [heq]; rfl
        · intro x hx
          rcases List.mem_cons.mp hx with hx | hx
          · subst hx; omega
          · exact h1 x hx

theorem melhorBenef_first (l : List BCand) (c : BCand)
    (h : V16.melhorBenefCand l = some c) :
    ∃ l1 l2, l = l1 ++ c :: l2 ∧ (∀ x ∈ l1, x.score < c.score) ∧
      (∀ x ∈ l2, x.score ≤ c.score) := by
  match l with
  | [] => cases h
  | b :: t =>
    simp only [V16.melhorBenefCand, Option.some.injEq] at h
    have H := foldlMax_first t b
    rw [h] at H
    rcases H with ⟨he, hall⟩ | ⟨l1, l2, heq, hb2, h1, h2⟩
    · refine ⟨[], t, ?_, ?_, ?_⟩
      · rw [he]; exact (List.nil_append _).symm
      · intro x hx; cases hx
      · rw [he]; exact hall
    · refine ⟨b :: l1, l2, ?_, ?_, h2⟩
      · rw [heq]; rfl
      · intro x hx
        rcases List.mem_cons.mp hx with hx | hx
        · subst hx; omega
        · exact h1 x hx

/- ### Lemmas about the text normalizer -/

/-- The characters replaced before normalization. -/
def notLigTrio (c : Char) : Prop := c ≠ 'ﬁ' ∧ c ≠ 'ﬂ' ∧ c ≠ ' '

theorem ligChar_avoids (c : Char) : ∀ d ∈ ligChar c, notLigTrio d := by
  intro d hd
  unfold ligChar at hd
  split at hd
  · simp only [List.mem_cons, List.not_mem_nil, or_false] at hd
    rcases hd with h | h <;> (subst h; exact ⟨by decide, by decide, by decide⟩)
  · split at hd
    · simp only [List.mem_cons, List.not_mem_nil, or_false] at hd
      rcases hd with h | h <;> (subst h; exact ⟨by decide, by decide, by decide⟩)
    · split at hd
      · simp only [List.mem_cons, List.not_mem_nil, or_false] at hd
        subst hd; exact ⟨by decide, by decide, by decide⟩
      · simp only [List.mem_cons, List.not_mem_nil, or_false] at hd
        subst hd
        rename_i h1 h2 h3
        exact ⟨h1, h2, h3⟩

theorem nfkcChar_avoids (c : Char) (hc : notLigTrio c) :
    ∀ d ∈ nfkcChar c, notLigTrio d := by
  intro d hd
  unfold nfkcChar at hd
  split at hd
  · simp only [List.mem_cons, List.not_mem_nil, or_false] at hd
    rcases hd with h | h <;> (subst h; exact ⟨by decide, by decide, by decide⟩)
  · split at hd
    · simp only [List.mem_cons, List.not_mem_nil, or_false] at hd
      rcases hd with h | h <;> (subst h; exact ⟨by decide, by decide, by decide⟩)
    · split at hd
      · simp only [List.mem_cons, List.not_mem_nil, or_false] at hd
        rcases hd with h | h <;> (subst h; exact ⟨by decide, by decide, by decide⟩)
      · split at hd
        · simp only [List.mem_cons, List.not_mem_nil, or_false] at hd
          subst hd; exact ⟨by decide, by decide, by decide⟩
        · simp only [List.mem_cons, List.not_mem_nil, or_false] at hd
          subst hd
          exact hc

theorem ligChar_fixed (c : Char) (hc : notLigTrio c) : ligChar c = [c] := by
  obtain ⟨h1, h2, h3⟩ := hc
  unfold ligChar
  rw [if_neg h1, if_neg h2, if_neg h3]

theorem nfkcChar_idem (c : Char) :
    (nfkcChar c).flatMap nfkcChar = nfkcChar c := by
  unfold nfkcChar
  split
  · decide
  · split
    · decide
    · split
      · decide
      · split
        · decide
        · rename_i h1 h2 h3 h4
          simp only [List.flatMap_cons, List.flatMap_nil, List.append_nil]
          rw [if_neg h1, if_neg h2, if_neg h3, if_neg h4]

theorem flatMap_lig_fixed (l : List Char) (h : ∀ d ∈ l, notLigTrio d) :
    l.flatMap ligChar = l := by
  induction l with
  | nil => rfl
  | cons c t ih =>
    simp only [List.flatMap_cons]
    rw [ligChar_fixed c (h c (by simp)), ih (fun d hd => h d (by simp [hd]))]
    rfl

theorem flatMap_nfkc_idem (l : List Char) :
    (l.flatMap nfkcChar).flatMap nfkcChar = l.flatMap nfkcChar := by
  induction l with
  | nil => rfl
  | cons c t ih =>
    simp only [List.flatMap_cons, List.flatMap_append, nfkcChar_idem, ih]

theorem limparL_avoids (l : List Char) : ∀ d ∈ limparL l, notLigTrio d := by
  intro d hd
  unfold limparL at hd
  rcases List.mem_flatMap.mp hd with ⟨e, he, hde⟩
  rcases List.mem_flatMap.mp he with ⟨c, _, hec⟩
  exact nfkcChar_avoids e (ligChar_avoids c e hec) d hde

theorem limparL_idem (l : List Char) : limparL (limparL l) = limparL l := by
  have h1 : (limparL l).flatMap ligChar = limparL l :=
    flatMap_lig_fixed _ (limparL_avoids l)
  show ((limparL l).flatMap ligChar).flatMap nfkcChar = limparL l
  rw [h1]
  show ((l.flatMap ligChar).flatMap nfkcChar).flatMap nfkcChar = _
  rw [flatMap_nfkc_idem]
  rfl

/- ### Lemmas about the name validators -/

theorem charEq_toNat (c d : Char) : (c = d) ↔ (c.toNat = d.toNat) := by
  constructor
  · intro h; rw [h]
  · intro h
    exact Char.ext (UInt32.ext h)

theorem digitPunct_no_alpha (c : Char) (h : isDigitPunct c = true) :
    isAsciiAlpha c = false := by
  rw [Bool.eq_false_iff]
  intro hT
  simp only [isDigitPunct, isDigitC, pyIsSpace, Bool.or_eq_true, Bool.and_eq_true,
    decide_eq_true_eq, charEq_toNat] at h
  simp only [isAsciiAlpha, Bool.or_eq_true, Bool.and_eq_true, decide_eq_true_eq] at hT
  simp only [show ('.' : Char).toNat = 46 from rfl, show ('-' : Char).toNat = 45 from rfl,
    show ('*' : Char).toNat = 42 from rfl, show (' ' : Char).toNat = 32 from rfl,
    show ('\t' : Char).toNat = 9 from rfl, show ('\n' : Char).toNat = 10 from rfl,
    show ('\r' : Char).toNat = 13 from rfl, show ('\u000b' : Char).toNat = 11 from rfl,
    show ('\u000c' : Char).toNat = 12 from rfl,
    show ('\u00a0' : Char).toNat = 160 from rfl] at h
  omega

theorem San_rejects_all (nome : List Char) (ml : Nat)
    (hall : nome.all isDigitPunct = true) : San.validar_nome nome ml = false := by
  unfold San.validar_nome
  split_ifs with h1 h2 h3 h4 h5 <;> try rfl
  exfalso
  have h2' : nome.any isAsciiAlpha = true := by
    revert h2
    cases hny : nome.any isAsciiAlpha <;> simp
  rcases List.any_eq_true.mp h2' with ⟨c, hc, hca⟩
  have hdp : isDigitPunct c = true := by
    have := List.all_eq_true.mp hall c hc
    simpa using this
  have := digitPunct_no_alpha c hdp
  simp only [this] at hca
  cases hca

theorem San_rejects_short (nome : List Char) (ml : Nat)
    (h : nome.length < ml) : San.validar_nome nome ml = false := by
  unfold San.validar_nome
  split_ifs with h1 <;> try rfl
  all_goals exact absurd (by simp [h]) h1

theorem San_rejects_jargon (nome : List Char) (ml : Nat) (r : List Char)
    (hr : r ∈ San.rejeitar)
    (hj : lowerL nome = r ∨ isPrefixL (r ++ [' ']) (lowerL nome) = true) :
    San.validar_nome nome ml = false := by
  unfold San.validar_nome
  split_ifs with h1 h2 h3 h4 h5 <;> try rfl
  exfalso
  apply h5
  refine List.any_eq_true.mpr ⟨r, hr, ?_⟩
  rcases hj with h | h <;> simp [h]

theorem San_rejects_inhouse (nome : List Char) (ml : Nat) (e : List Char)
    (he : e ∈ San.empresas_sistema) (hc : containsSub (upperL nome) e = true) :
    San.validar_nome nome ml = false := by
  unfold San.validar_nome
  split_ifs with h1 h2 h3 h4 h5 <;> try rfl
  exfalso
  apply h4
  exact List.any_eq_true.mpr ⟨e, he, by simp [hc]⟩

theorem loopEmpresas_iff (nu : List Char) : ∀ (l : List (List Char)),
    V16.loopEmpresas l nu = true ↔
      ∃ e ∈ l, containsSub nu e = true ∧
        ¬(e = "SICOOB".data ∧ 25 < nu.length ∧
          containsSub nu ("SISTEMA DE COOPERATIVAS".data) = false) := by
  intro l
  induction l with
  | nil => simp [V16.loopEmpresas]
  | cons e rest ih =>
    unfold V16.loopEmpresas
    by_cases hc : containsSub nu e = true
    · rw [if_pos hc]
      by_cases hex : (e = "SICOOB".data && 25 < nu.length &&
          ! containsSub nu ("SISTEMA DE COOPERATIVAS".data)) = true
      · rw [if_pos hex]
        simp only [Bool.and_eq_true, decide_eq_true_eq, Bool.not_eq_true',
          Bool.not_eq_true] at hex
        constructor
        · intro h
          rcases ih.mp h with ⟨e2, he2, hc2, hx2⟩
          exact ⟨e2, List.mem_cons_of_mem _ he2, hc2, hx2⟩
        · intro h
          rcases h with ⟨e2, he2, hc2, hx2⟩
          rcases List.mem_cons.mp he2 with he2 | he2
          · subst he2
            exact absurd ⟨hex.1.1, hex.1.2, hex.2⟩ hx2
          · exact ih.mpr ⟨e2, he2, hc2, hx2⟩
      · rw [if_neg hex]
        simp only [Bool.and_eq_true, decide_eq_true_eq, Bool.not_eq_true',
          not_and, Bool.not_eq_true] at hex
        constructor
        · intro _
          refine ⟨e, List.mem_cons_self _ _, hc, ?_⟩
          intro ⟨hx1, hx2, hx3⟩
          exact absurd (hex ⟨hx1, hx2⟩) (by simp [hx3])
        · intro _; rfl
    · rw [if_neg hc]
      constructor
      · intro h
        rcases ih.mp h with ⟨e2, he2, hc2, hx2⟩
        exact ⟨e2, List.mem_cons_of_mem _ he2, hc2, hx2⟩
      · intro h
        rcases h with ⟨e2, he2, hc2, hx2⟩
        rcases List.mem_cons.mp he2 with he2 | he2
        · subst he2; exact absurd hc2 hc
        · exact ih.mpr ⟨e2, he2, hc2, hx2⟩

theorem V16_rejects_other_inhouse (nome : List Char) (ml : Nat) (e : List Char)
    (he : e ∈ V16.empresas_sistema) (hne : e ≠ "SICOOB".data)
    (hc : containsSub (upperL nome) e = true) :
    V16.validar_nome nome ml = false := by
  unfold V16.validar_nome
  split_ifs with h1 h2 h3 h4 h5 <;> try rfl
  exfalso
  apply h4
  exact (loopEmpresas_iff (upperL nome) V16.empresas_sistema).mpr
    ⟨e, he, hc, fun hx => hne hx.1⟩


/- ### Claim theorems -/

/-- C7: the text normalizer limpar_texto is idempotent, it is a total
function on strings, and the empty input yields the empty output. -/
theorem C7_normalizer_idem :
    (∀ s : String, limpar_texto (limpar_texto s) = limpar_texto s) ∧
    limpar_texto "" = "" := by
  constructor
  · intro s
    show (⟨limparL (String.data ⟨limparL s.data⟩)⟩ : String) = ⟨limparL s.data⟩
    rw [show String.data ⟨limparL s.data⟩ = limparL s.data from rfl, limparL_idem]
  · rfl

/-- C7 witness at a concrete string. -/
theorem C7_normalizer_idem_witness :
    limpar_texto (limpar_texto "ﬁm x") = limpar_texto "ﬁm x" :=
  C7_normalizer_idem.1 "ﬁm x"

/-- C10: sanitize_filename always yields a non-empty name of at most
MAX_NAME_LEN characters, but montar_nome does not re-truncate the full
filename, which can therefore exceed MAX_NAME_LEN. -/
theorem sanitizeTail_bounds (l : List Char) :
    0 < (if (if MAX_NAME_LEN < l.length then l.take MAX_NAME_LEN else l) = []
         then "FORNECEDOR_DESCONHECIDO".data
         else if MAX_NAME_LEN < l.length then l.take MAX_NAME_LEN else l).length ∧
    (if (if MAX_NAME_LEN < l.length then l.take MAX_NAME_LEN else l) = []
     then "FORNECEDOR_DESCONHECIDO".data
     else if MAX_NAME_LEN < l.length then l.take MAX_NAME_LEN else l).length ≤
      MAX_NAME_LEN := by
  have hmlen : (if MAX_NAME_LEN < l.length then l.take MAX_NAME_LEN else l).length ≤
      MAX_NAME_LEN := by
    split
    · simp only [List.length_take]
      omega
    · omega
  by_cases h : (if MAX_NAME_LEN < l.length then l.take MAX_NAME_LEN else l) = []
  · rw [if_pos h]
    exact ⟨by decide, by decide⟩
  · rw [if_neg h]
    exact ⟨List.length_pos.mpr h, hmlen⟩

/-- C10: sanitize_filename always yields a non-empty name of at most
MAX_NAME_LEN characters, but montar_nome does not re-truncate the full
filename, which can therefore exceed MAX_NAME_LEN. -/
theorem C10_sanitize_bounds :
    (∀ name : List Char,
        0 < (sanitize_filename name).length ∧
        (sanitize_filename name).length ≤ MAX_NAME_LEN) ∧
    MAX_NAME_LEN < (V16.montar_nome (List.replicate 70 'A') [] 1 []).length := by
  constructor
  · intro name
    exact sanitizeTail_bounds _
  · decide

/-- C10 witness at a concrete name. -/
theorem C10_sanitize_bounds_witness :
    0 < (sanitize_filename ("João & Cia. Ltda/Matriz").data).length ∧
    (sanitize_filename ("João & Cia. Ltda/Matriz").data).length ≤ MAX_NAME_LEN :=
  C10_sanitize_bounds.1 ("João & Cia. Ltda/Matriz").data

/-- C5: the sanitized script's name validator rejects strings made only
of digits, periods, hyphens, asterisks and whitespace, strings shorter
than the minimum length, strings equal to or prefixed (followed by a
blank) by a configured banking-jargon token, and strings containing a
configured in-house entity; and it accepts MARIO PASTORE at minimum
length five. -/
theorem C5_validator :
    (∀ (nome : List Char) (ml : Nat), nome.all isDigitPunct = true →
        San.validar_nome nome ml = false) ∧
    (∀ (nome : List Char) (ml : Nat), nome.length < ml →
        San.validar_nome nome ml = false) ∧
    (∀ (nome : List Char) (ml : Nat), ∀ r ∈ San.rejeitar,
        (lowerL nome = r ∨ isPrefixL (r ++ [' ']) (lowerL nome) = true) →
        San.validar_nome nome ml = false) ∧
    (∀ (nome : List Char) (ml : Nat), ∀ e ∈ San.empresas_sistema,
        containsSub (upperL nome) e = true → San.validar_nome nome ml = false) ∧
    San.validar_nome ("MARIO PASTORE").data 5 = true :=
  ⟨San_rejects_all, San_rejects_short,
   fun nome ml r hr hj => San_rejects_jargon nome ml r hr hj,
   fun nome ml e he hc => San_rejects_inhouse nome ml e he hc,
   by decide⟩

/-- C5 witness: a jargon-prefixed candidate is rejected. -/
theorem C5_validator_witness :
    San.validar_nome ("conta corrente x").data 5 = false :=
  C5_validator.2.2.1 ("conta corrente x").data 5 ("conta").data (by decide)
    (Or.inr (by decide))

set_option maxRecDepth 10000 in
/-- C9: the in-house loop of the v16 validator rejects exactly the
names containing a configured substring, except that a name containing
SICOOB escapes that rejection when the upper-cased name is longer than
twenty-five characters and does not contain SISTEMA DE COOPERATIVAS;
every other configured substring rejects unconditionally, and a long
cooperative name is accepted while the short SICOOB BRASIL is not. -/
theorem C9_sicoob_exception :
    (∀ nu : List Char,
        V16.loopEmpresas V16.empresas_sistema nu = true ↔
          ∃ e ∈ V16.empresas_sistema, containsSub nu e = true ∧
            ¬(e = "SICOOB".data ∧ 25 < nu.length ∧
              containsSub nu ("SISTEMA DE COOPERATIVAS".data) = false)) ∧
    (∀ (nome : List Char) (ml : Nat), ∀ e ∈ V16.empresas_sistema,
        e ≠ "SICOOB".data → containsSub (upperL nome) e = true →
        V16.validar_nome nome ml = false) ∧
    V16.validar_nome ("SICOOB COOPERATIVA DE CREDITO DO VALE").data 5 = true ∧
    V16.validar_nome ("SICOOB BRASIL").data 5 = false :=
  ⟨fun nu => loopEmpresas_iff nu V16.empresas_sistema,
   fun nome ml e he hne hc => V16_rejects_other_inhouse nome ml e he hne hc,
   by decide, by decide⟩

/-- C9 witness: a candidate containing another in-house entity is
rejected unconditionally. -/
theorem C9_sicoob_exception_witness :
    V16.validar_nome ("FARMAUSA COMERCIO LTDA").data 5 = false :=
  C9_sicoob_exception.2.1 ("FARMAUSA COMERCIO LTDA").data 5 ("FARMAUSA").data
    (by decide) (by decide) (by decide)

/-- The disambiguation-prefix shape of montar_nome: above one the built
name is the marker, the counter and a separator prepended to the
first-occurrence name, and at one it is the bare base name. -/
theorem montar_prefix (b v s : List Char) (c : Nat) (hc : 1 < c) :
    V16.montar_nome b v c s =
      V16.pixMarcador ++ (Nat.repr c).data ++ " - ".data ++
        V16.montar_nome b v 1 s := by
  simp only [V16.montar_nome, if_pos hc, if_neg (show ¬ (1 : Nat) < 1 by omega)]
  simp [List.append_assoc]

set_option maxRecDepth 10000 in
/-- C6: the occurrence counter gives every key its occurrence rank in
processing order, the first occurrence of each key is numbered one and
each later occurrence of the same key is one more than the number of
earlier occurrences; the built filename carries the marker prefix
exactly for counters above one, so of three identical results A, B, C
only B and C carry it. -/
theorem C6_occurrences :
    (∀ (ks : List V16.OccKey) (i : Nat) (h : i < ks.length),
        (V16.contadorRun ks)[i]? = some (countOcc (ks.take (i + 1)) ks[i])) ∧
    (∀ (b v s : List Char) (c : Nat), 1 < c →
        V16.montar_nome b v c s =
          V16.pixMarcador ++ (Nat.repr c).data ++ " - ".data ++
            V16.montar_nome b v 1 s) ∧
    (V16.contadorRun
        [(("LIFE_SCIENCE").data, ("MARIO PASTORE").data, ("8000,00").data),
         (("LIFE_SCIENCE").data, ("MARIO PASTORE").data, ("8000,00").data),
         (("LIFE_SCIENCE").data, ("MARIO PASTORE").data, ("8000,00").data)] =
       [1, 2, 3] ∧
     V16.montar_nome ("MARIO PASTORE").data ("8000,00").data 1 [] =
       ("MARIO_PASTORE - 8000,00.pdf").data ∧
     V16.montar_nome ("MARIO PASTORE").data ("8000,00").data 2 [] =
       ("N2 - MARIO_PASTORE - 8000,00.pdf").data ∧
     V16.montar_nome ("MARIO PASTORE").data ("8000,00").data 3 [] =
       ("N3 - MARIO_PASTORE - 8000,00.pdf").data ∧
     isPrefixL ("N").data
       (V16.montar_nome ("MARIO PASTORE").data ("8000,00").data 1 []) = false ∧
     isPrefixL ("N2 - ").data
       (V16.montar_nome ("MARIO PASTORE").data ("8000,00").data 2 []) = true ∧
     isPrefixL ("N3 - ").data
       (V16.montar_nome ("MARIO PASTORE").data ("8000,00").data 3 []) = true) := by
  refine ⟨?_, montar_prefix, by decide⟩
  intro ks i h
  simp only [V16.contadorRun]
  rw [contadorGo_get ks [] i h]
  simp [lookupC]

/-- C6 witness at a concrete one-key run. -/
theorem C6_occurrences_witness :
    (V16.contadorRun [(("A").data, ("B").data, ("C").data)])[0]? =
      some (countOcc ([(("A").data, ("B").data, ("C").data)].take 1)
        ([(("A").data, ("B").data, ("C").data)] )[0]) :=
  C6_occurrences.1 [(("A").data, ("B").data, ("C").data)] 0 (by decide)

/- ### Totality of the extractors -/

theorem updV_ne_nil (m : List (DecVal × VCand)) (v : VCand) :
    V16.updValor m v ≠ [] := by
  match m with
  | [] => simp [V16.updValor]
  | (k, g) :: rest =>
    unfold V16.updValor
    split <;> simp

theorem unicosValor_ne_nil (cs : List VCand) (h : cs ≠ []) :
    V16.unicosValor cs ≠ [] := by
  induction cs using List.reverseRecOn with
  | nil => exact absurd rfl h
  | append_singleton cs v _ =>
    rw [unicosValor_concat]
    exact updV_ne_nil _ _

theorem melhorValor_none (l : List VCand) (h : V16.melhorValorCand l = none) :
    l = [] := by
  match l with
  | [] => rfl
  | c :: t => simp [V16.melhorValorCand] at h

theorem updB_ne_nil (m : List (List Char × BCand)) (c : BCand) :
    V16.updBenef m c ≠ [] := by
  match m with
  | [] => simp [V16.updBenef]
  | (k, g) :: rest =>
    unfold V16.updBenef
    split <;> simp

theorem unicosBenef_ne_nil (cs : List BCand) (h : cs ≠ []) :
    V16.unicosBenef cs ≠ [] := by
  induction cs using List.reverseRecOn with
  | nil => exact absurd rfl h
  | append_singleton cs v _ =>
    rw [unicosBenef_concat]
    exact updB_ne_nil _ _

theorem melhorBenef_none (l : List BCand) (h : V16.melhorBenefCand l = none) :
    l = [] := by
  match l with
  | [] => rfl
  | c :: t => simp [V16.melhorBenefCand] at h

/-- Either no amount is found or the answer is the display string of
one of the discovered candidates. -/
theorem extrair_valor_cases (t : List Char) :
    V16.extrair_valor t = ("VALOR_NAO_ENCONTRADO").data ∨
    ∃ c ∈ V16.valoresEncontrados t, V16.extrair_valor t = c.valor := by
  by_cases ht : t = []
  · left
    rw [V16.extrair_valor, if_pos ht]
  · by_cases hvs : (V16.valoresEncontrados t).isEmpty = true
    · left
      rw [V16.extrair_valor, if_neg ht, if_pos hvs]
    · cases hmv : V16.melhorValorCand
          ((V16.unicosValor (V16.valoresEncontrados t)).map Prod.snd) with
      | none =>
        exfalso
        have hmape : (V16.unicosValor (V16.valoresEncontrados t)).map Prod.snd = [] :=
          melhorValor_none _ hmv
        have : V16.unicosValor (V16.valoresEncontrados t) = [] :=
          List.map_eq_nil_iff.mp hmape
        exact unicosValor_ne_nil _ (by simpa [List.isEmpty_iff] using hvs) this
      | some m =>
        right
        rcases melhorValor_spec _ m hmv with ⟨hmem, _⟩
        rcases List.mem_map.mp hmem with ⟨p, hpu, hpm⟩
        have hin : p.2 ∈ V16.valoresEncontrados t :=
          ((unicosValor_spec (V16.valoresEncontrados t)).1 p hpu).1
        refine ⟨m, by rw [← hpm]; exact hin, ?_⟩
        rw [V16.extrair_valor, if_neg ht, if_neg hvs, hmv]

/-- Either no beneficiary is found or the answer is the name of one of
the validated candidates. -/
theorem extrair_benef_cases (t : List Char) :
    V16.extrair_beneficiario t = ("FORNECEDOR_DESCONHECIDO").data ∨
    ∃ c ∈ V16.candidatosBenef t, V16.extrair_beneficiario t = c.nome := by
  by_cases ht : t = []
  · left
    rw [V16.extrair_beneficiario, if_pos ht]
  · by_cases hvs : (V16.candidatosBenef t).isEmpty = true
    · left
      rw [V16.extrair_beneficiario, if_neg ht, if_pos hvs]
    · cases hmv : V16.melhorBenefCand
          ((V16.unicosBenef (V16.candidatosBenef t)).map Prod.snd) with
      | none =>
        exfalso
        have hmape : (V16.unicosBenef (V16.candidatosBenef t)).map Prod.snd = [] :=
          melhorBenef_none _ hmv
        have : V16.unicosBenef (V16.candidatosBenef t) = [] :=
          List.map_eq_nil_iff.mp hmape
        exact unicosBenef_ne_nil _ (by simpa [List.isEmpty_iff] using hvs) this
      | some m =>
        right
        rcases melhorBenef_first _ m hmv with ⟨l1, l2, heq, _, _⟩
        have hmem : m ∈ (V16.unicosBenef (V16.candidatosBenef t)).map Prod.snd := by
          rw [heq]
          exact List.mem_append_right _ (List.mem_cons_self _ _)
        rcases List.mem_map.mp hmem with ⟨p, hpu, hpm⟩
        have hin : p.2 ∈ V16.candidatosBenef t :=
          ((unicosBenef_spec (V16.candidatosBenef t)).1 p hpu).1
        refine ⟨m, by rw [← hpm]; exact hin, ?_⟩
        rw [V16.extrair_beneficiario, if_neg ht, if_neg hvs, hmv]

theorem mkBrad_pos (prio : Nat) (tipo : String) (raw : List Char) (c : VCand)
    (h : V16.mkBradCand prio tipo raw = some c) : 0 < c.flt.num := by
  simp only [V16.mkBradCand] at h
  split at h
  · split at h
    · rw [Option.some.injEq] at h
      subst h
      assumption
    · cases h
  · cases h

theorem mkLoop_pos (prio : Nat) (tipo : String) (raw : List Char) (c : VCand)
    (h : V16.mkLoopCand prio tipo raw = some c) : 0 < c.flt.num := by
  simp only [V16.mkLoopCand] at h
  split at h
  · split at h
    · rw [Option.some.injEq] at h
      subst h
      assumption
    · cases h
  · cases h

/-- Every discovered amount candidate parsed to a positive number:
unparsable and non-positive captures are discarded. -/
theorem valores_pos (t : List Char) : ∀ c ∈ V16.valoresEncontrados t, 0 < c.flt.num := by
  intro c hc
  unfold V16.valoresEncontrados at hc
  rcases List.mem_append.mp hc with hc | hc
  · rcases List.mem_append.mp hc with hc | hc
    · rcases hs : reSearch V16.patBrad0 t with _ | ⟨st, en, cap⟩
      · rw [hs] at hc; cases hc
      · rw [hs] at hc
        rcases cap with _ | g
        · cases hc
        · rw [Option.mem_toList] at hc
          exact mkBrad_pos _ _ _ _ (Option.mem_def.mp hc)
    · split at hc
      · rcases hs : reSearch V16.patBrad0Alt t with _ | ⟨st, en, cap⟩
        · rw [hs] at hc; cases hc
        · rw [hs] at hc
          rcases cap with _ | g
          · cases hc
          · rw [Option.mem_toList] at hc
            exact mkBrad_pos _ _ _ _ (Option.mem_def.mp hc)
      · cases hc
  · rcases List.mem_flatMap.mp hc with ⟨pt, _, hcc⟩
    rcases List.mem_filterMap.mp hcc with ⟨raw, _, hmk⟩
    exact mkLoop_pos _ _ _ _ hmk

set_option maxRecDepth 100000 in
/-- C3: deduplication by parsed numeric value keeps the lowest-priority
candidate per value, the final answer has the globally lowest priority
number, and a text holding both Valor principal R$ 100,00 and a bare
R$ 999,00 yields 100,00. -/
theorem C3_priority_dedup :
    (∀ cs : List VCand, ∀ p ∈ V16.unicosValor cs,
        p.2 ∈ cs ∧ dvEq p.2.flt p.1 = true ∧
        ∀ d ∈ cs, dvEq d.flt p.1 = true → p.2.prioridade ≤ d.prioridade) ∧
    (∀ (l : List VCand) (c : VCand), V16.melhorValorCand l = some c →
        c ∈ l ∧ ∀ x ∈ l, c.prioridade ≤ x.prioridade) ∧
    V16.extrair_valor ("Valor principal: R$ 100,00 R$ 999,00").data =
      ("100,00").data :=
  ⟨fun cs => (unicosValor_spec cs).1, melhorValor_spec, by decide⟩

/-- C3 witness at a one-candidate dictionary. -/
theorem C3_priority_dedup_witness :
    (⟨("7,00").data, "rs_isolado", 5, ⟨700, 2⟩⟩ : VCand) ∈
      [(⟨("7,00").data, "rs_isolado", 5, ⟨700, 2⟩⟩ : VCand)] ∧
    ∀ x ∈ [(⟨("7,00").data, "rs_isolado", 5, ⟨700, 2⟩⟩ : VCand)],
      (⟨("7,00").data, "rs_isolado", 5, ⟨700, 2⟩⟩ : VCand).prioridade ≤
        x.prioridade :=
  C3_priority_dedup.2.1 _ _ rfl

set_option maxRecDepth 100000 in
/-- C4: grouping keeps the per-group maximum score, the groups stand in
first-occurrence order, the first group attaining the maximal score is
selected (so score ties go to the earlier-registered detector), a score
tie between two groups resolves to the first, and zero validated
candidates give the unknown-supplier sentinel. -/
theorem C4_benef_selection :
    (∀ cs : List BCand, ∀ p ∈ V16.unicosBenef cs,
        p.2 ∈ cs ∧ V16.nomeNorm p.2 = p.1 ∧
        ∀ d ∈ cs, V16.nomeNorm d = p.1 → d.score ≤ p.2.score) ∧
    (∀ cs : List BCand,
        (V16.unicosBenef cs).map Prod.fst = firstOccKeys (cs.map V16.nomeNorm)) ∧
    (∀ (l : List BCand) (c : BCand), V16.melhorBenefCand l = some c →
        ∃ l1 l2, l = l1 ++ c :: l2 ∧ (∀ x ∈ l1, x.score < c.score) ∧
          ∀ x ∈ l2, x.score ≤ c.score) ∧
    (∀ texto : List Char, V16.candidatosBenef texto = [] →
        V16.extrair_beneficiario texto = ("FORNECEDOR_DESCONHECIDO").data) ∧
    V16.melhorBenefCand
        ((V16.unicosBenef
          [⟨("ALFA BETA").data, 10, "primeiro"⟩,
           ⟨("GAMA DELTA").data, 10, "segundo"⟩]).map Prod.snd) =
      some ⟨("ALFA BETA").data, 10, "primeiro"⟩ := by
  refine ⟨fun cs => (unicosBenef_spec cs).1, unicosBenef_keys,
    melhorBenef_first, ?_, by decide⟩
  intro texto h
  by_cases ht : texto = []
  · rw [V16.extrair_beneficiario, if_pos ht]
  · rw [V16.extrair_beneficiario, if_neg ht, h]
    rfl

/-- C4 witness: a text without any validated candidate yields the
sentinel. -/
theorem C4_benef_selection_witness :
    V16.extrair_beneficiario ("x").data = ("FORNECEDOR_DESCONHECIDO").data :=
  C4_benef_selection.2.2.2.1 ("x").data (by decide)

set_option maxRecDepth 100000 in
/-- C8: both extractors are total with sentinel defaults: the amount
extractor returns its sentinel or the display string of one of its
candidates, all of which parsed to a positive number (unparsable and
non-positive captures were silently discarded), the beneficiary
extractor returns its sentinel or the name of one of its validated
candidates, and the empty text yields the sentinels. -/
theorem C8_total_extractors :
    (∀ t : List Char, V16.extrair_valor t = ("VALOR_NAO_ENCONTRADO").data ∨
        ∃ c ∈ V16.valoresEncontrados t, V16.extrair_valor t = c.valor) ∧
    (∀ t : List Char, ∀ c ∈ V16.valoresEncontrados t, 0 < c.flt.num) ∧
    (∀ t : List Char, V16.extrair_beneficiario t = ("FORNECEDOR_DESCONHECIDO").data ∨
        ∃ c ∈ V16.candidatosBenef t, V16.extrair_beneficiario t = c.nome) ∧
    V16.extrair_valor [] = ("VALOR_NAO_ENCONTRADO").data ∧
    V16.extrair_beneficiario [] = ("FORNECEDOR_DESCONHECIDO").data :=
  ⟨extrair_valor_cases, valores_pos, extrair_benef_cases, rfl, rfl⟩

set_option maxRecDepth 100000 in
/-- C8 witness: the single candidate of a small text is positive. -/
theorem C8_total_extractors_witness :
    0 < (⟨("7,00").data, "rs_isolado", 5, ⟨700, 2⟩⟩ : VCand).flt.num :=
  C8_total_extractors.2.1 ("R$ 7,00").data
    ⟨("7,00").data, "rs_isolado", 5, ⟨700, 2⟩⟩ (by decide)

theorem map_comma_no_dot (l : List Char) :
    (l.map (fun c => if c = '.' then ',' else c)).contains '.' = false := by
  rw [Bool.eq_false_iff]
  intro hT
  rw [List.contains_eq_any_beq, List.any_eq_true] at hT
  rcases hT with ⟨y, hy, hby⟩
  rcases List.mem_map.mp hy with ⟨x, hx, hfx⟩
  rw [← hfx] at hby
  rw [beq_iff_eq] at hby
  replace hfx := hby.symm
  by_cases hd : x = '.'
  · rw [if_pos hd] at hfx
    exact absurd hfx (by decide)
  · rw [if_neg hd] at hfx
    exact hd hfx

theorem mkBrad_prio (prio : Nat) (tipo : String) (raw : List Char) (c : VCand)
    (h : V16.mkBradCand prio tipo raw = some c) : c.prioridade = prio := by
  simp only [V16.mkBradCand] at h
  split at h
  · split at h
    · rw [Option.some.injEq] at h
      subst h
      rfl
    · cases h
  · cases h

theorem mkLoop_no_dot (prio : Nat) (tipo : String) (raw : List Char) (c : VCand)
    (h : V16.mkLoopCand prio tipo raw = some c) : c.valor.contains '.' = false := by
  simp only [V16.mkLoopCand] at h
  split at h
  · split at h
    · rw [Option.some.injEq] at h
      subst h
      exact map_comma_no_dot _
    · cases h
  · cases h

set_option maxRecDepth 100000 in
/-- C2 counterexample: on a text whose amount match reads 1.234,56 the
winning candidate parses to the number 1234.56, but the returned display
string is 1234,56 with the thousands separator dropped, not the original
form with its period. -/
theorem C2_counterexample :
    (⟨("1234,56").data, "principal", 1, ⟨123456, 2⟩⟩ : VCand) ∈
      V16.valoresEncontrados (("Valor principal: R$ 1.234,56").data) ∧
    DecVal.toRat ⟨123456, 2⟩ = 1234.56 ∧
    V16.extrair_valor (("Valor principal: R$ 1.234,56").data) = ("1234,56").data ∧
    (("1.234,56").data).contains '.' = true ∧
    (V16.extrair_valor (("Valor principal: R$ 1.234,56").data)).contains '.' =
      false :=
  ⟨by decide, by norm_num [DecVal.toRat], by decide, by decide, by decide⟩

/-- C2 amended: every amount candidate produced by the pattern table
(priority above 0) carries a display string in which the thousands
separator has been dropped and every remaining period replaced by a
comma, so the returned form never contains a period and the original
thousands-separated form is not preserved. -/
theorem C2_amended :
    ∀ t : List Char, ∀ c ∈ V16.valoresEncontrados t, 0 < c.prioridade →
      c.valor.contains '.' = false := by
  intro t c hc hp
  unfold V16.valoresEncontrados at hc
  rcases List.mem_append.mp hc with hc | hc
  · rcases List.mem_append.mp hc with hc | hc
    · rcases hs : reSearch V16.patBrad0 t with _ | ⟨st, en, cap⟩
      · rw [hs] at hc; cases hc
      · rw [hs] at hc
        rcases cap with _ | g
        · cases hc
        · rw [Option.mem_toList] at hc
          have h0 := mkBrad_prio _ _ _ _ (Option.mem_def.mp hc)
          omega
    · split at hc
      · rcases hs : reSearch V16.patBrad0Alt t with _ | ⟨st, en, cap⟩
        · rw [hs] at hc; cases hc
        · rw [hs] at hc
          rcases cap with _ | g
          · cases hc
          · rw [Option.mem_toList] at hc
            have h0 := mkBrad_prio _ _ _ _ (Option.mem_def.mp hc)
            omega
      · cases hc
  · rcases List.mem_flatMap.mp hc with ⟨pt, _, hcc⟩
    rcases List.mem_filterMap.mp hcc with ⟨raw, _, hmk⟩
    exact mkLoop_no_dot _ _ _ _ hmk

set_option maxRecDepth 100000 in
/-- C2 witness: the bare rs_isolado candidate of the counterexample text
has a period-free display string. -/
theorem C2_amended_witness :
    ((⟨("1234,56").data, "rs_isolado", 5, ⟨123456, 2⟩⟩ : VCand).valor).contains
      '.' = false :=
  C2_amended (("Valor principal: R$ 1.234,56").data)
    ⟨("1234,56").data, "rs_isolado", 5, ⟨123456, 2⟩⟩ (by decide) (by decide)

/-- The end-to-end example text: both spec fragments plus the payer
alias LIFE SCIENCE. -/
def textoC1 : List Char :=
  ("FARMAUSA LIFE SCIENCE Controle de Pagamento Beneficiário: MARIO PASTORE CPF/CNPJ: 123.456.789-00 Valor principal: R$ 8.000,00").data

set_option maxRecDepth 100000 in
theorem pipeline_textoC1 :
    V16.processar_pagina textoC1 1 =
      ⟨("MARIO PASTORE").data, ("8000,00").data, ("LIFE_SCIENCE").data,
       ("MARIO_PASTORE - 8000,00.pdf").data⟩ := by decide

set_option maxRecDepth 100000 in
/-- C1 counterexample: the example text holds both fragments and the
alias, and the pipeline does return beneficiary MARIO PASTORE and the
matched payer code, but the amount comes back as 8000,00 and the
first-occurrence filename as MARIO_PASTORE - 8000,00.pdf: the thousands
separator of 8.000,00 is dropped. -/
theorem C1_counterexample :
    containsSub textoC1
      (("Controle de Pagamento Beneficiário: MARIO PASTORE CPF/CNPJ: 123.456.789-00").data) = true ∧
    containsSub textoC1 (("Valor principal: R$ 8.000,00").data) = true ∧
    (V16.processar_pagina textoC1 1).beneficiario = ("MARIO PASTORE").data ∧
    (V16.processar_pagina textoC1 1).empresa = ("LIFE_SCIENCE").data ∧
    ((V16.processar_pagina textoC1 1).valor == ("8.000,00").data) = false ∧
    ((V16.processar_pagina textoC1 1).nomeArquivo ==
      ("MARIO_PASTORE - 8.000,00.pdf").data) = false := by
  refine ⟨by decide, by decide, ?_, ?_, ?_, ?_⟩ <;> rw [pipeline_textoC1] <;> decide

set_option maxRecDepth 100000 in
/-- C1 amended: on the example text with both fragments and the alias,
the pipeline returns beneficiary MARIO PASTORE, amount 8000,00, payer
code LIFE_SCIENCE and first-occurrence filename
MARIO_PASTORE - 8000,00.pdf. -/
theorem C1_amended :
    containsSub textoC1
      (("Controle de Pagamento Beneficiário: MARIO PASTORE CPF/CNPJ: 123.456.789-00").data) = true ∧
    containsSub textoC1 (("Valor principal: R$ 8.000,00").data) = true ∧
    V16.processar_pagina textoC1 1 =
      ⟨("MARIO PASTORE").data, ("8000,00").data, ("LIFE_SCIENCE").data,
       ("MARIO_PASTORE - 8000,00.pdf").data⟩ :=
  ⟨by decide, by decide, pipeline_textoC1⟩

end Renomear
